import Mathlib

/-!
# LoadMoveGH escrow settlement engine — shallow embedding

This file embeds the wallet / ledger / escrow / dispute / mobile-money
subsystem of the LoadMoveGH platform (files
`app/api/v1/endpoints/escrow.py`, `app/api/v1/endpoints/wallets.py`,
`app/models/wallet.py`) and proves or refutes the specification claims
about it.

Modelling conventions:
* Monetary amounts are integers in minor units (pesewas, i.e. cents of
  GHS).  The Python code stores two-decimal `Numeric(14, 2)` amounts and
  rounds with `round(x, 2)`; `round(x, 2)` on an exact two-decimal value
  is the identity, and rounding of a product is modelled by rounding the
  rational product to the nearest integer number of cents.
* UUIDs are modelled as `Nat` identifiers drawn from a fresh-id counter
  `St.nextId`; timestamps, free-text descriptions, phone numbers,
  provider names and callback URLs are bookkeeping-only fields and are
  omitted.
* The single-currency case (`"GHS"`, the default of every endpoint) is
  modelled; no claim involves more than one currency.
* An HTTP error raised by an endpoint aborts the surrounding database
  transaction, so a failing operation is modelled as `Except.error`
  leaving the state unchanged.
* `FreightTrip` and its listing/bid are collapsed into one `Trip` record
  carrying `listing.shipper_id`, `trip.courier_id` and `bid.price`,
  which is exactly the data the settlement endpoints read from them.
-/

namespace LoadMove

/-- `WalletStatus` from `app/models/wallet.py`. -/
inductive WalletStatus where
  | active
  | frozen
  | closed
deriving DecidableEq

/-- `TransactionType` from `app/models/wallet.py`. -/
inductive TxnType where
  | deposit
  | withdrawal
  | escrowHold
  | escrowRelease
  | escrowRefund
  | commission
  | transferIn
  | transferOut
  | adjustment
deriving DecidableEq

/-- `TransactionStatus` from `app/models/wallet.py`. -/
inductive TxnStatus where
  | pending
  | processing
  | completed
  | failed
  | reversed
deriving DecidableEq

/-- `EscrowStatus` from `app/models/wallet.py` (`partlyReleased` stands
for the source's `PARTIALLY_RELEASED`). -/
inductive EscrowStatus where
  | held
  | released
  | refunded
  | disputed
  | partlyReleased
deriving DecidableEq

/-- `MoMoDirection` from `app/models/wallet.py`. -/
inductive MoMoDirection where
  | collection
  | disbursement
deriving DecidableEq

/-- `MoMoStatus` from `app/models/wallet.py`. -/
inductive MoMoStatus where
  | initiated
  | pending
  | success
  | failed
  | timeout
  | cancelled
deriving DecidableEq

/-- `PayoutStatus` from `app/models/wallet.py`. -/
inductive PayoutStatus where
  | scheduled
  | processing
  | completed
  | failed
  | cancelled
deriving DecidableEq

/-- `DisputeStatus` from `app/models/wallet.py` (`opened` stands for the
source's `OPEN`, which is a reserved word in Lean). -/
inductive DisputeStatus where
  | opened
  | underReview
  | resolvedShipper
  | resolvedCourier
  | resolvedSplit
  | escalated
  | closed
deriving DecidableEq

/-- `TripStatus` from `app/models/freight.py`. -/
inductive TripStatus where
  | pickupPending
  | pickedUp
  | inTransit
  | atWaypoint
  | delivered
  | confirmed
  | disputed
  | cancelled
deriving DecidableEq

/-- The three values accepted by `ResolveDisputeRequest.resolution`
(`app/schemas/wallet.py` validates the string against exactly this
list, so the dispatch in `resolve_dispute` is total). -/
inductive Resolution where
  | shipper
  | courier
  | split
deriving DecidableEq

/-- `Wallet` model: the balance-carrying fields read and written by the
settlement endpoints. -/
structure Wallet where
  userId : Nat
  balance : Int
  escrowBalance : Int
  totalDeposited : Int
  totalWithdrawn : Int
  totalEarned : Int
  status : WalletStatus
deriving DecidableEq

/-- `FreightTrip` together with the listing / bid fields the settlement
endpoints read (`listing.shipper_id`, `trip.courier_id`, `bid.price`). -/
structure Trip where
  shipperId : Nat
  courierId : Nat
  bidAmount : Int
  status : TripStatus
deriving DecidableEq

/-- `EscrowHold` model.  `rate` is `platform_commission_rate` in basis
points (the source's float `0.05` is 500 basis points; see
`PLATFORM_RATE_BP`). -/
structure Hold where
  tripId : Nat
  shipperWalletId : Nat
  courierWalletId : Option Nat
  amount : Int
  rate : Int
  commissionAmount : Option Int
  payoutAmount : Option Int
  status : EscrowStatus
deriving DecidableEq

/-- `Dispute` model. -/
structure DisputeR where
  tripId : Nat
  escrowId : Nat
  raisedBy : Nat
  againstUser : Nat
  status : DisputeStatus
  shipperRefundAmount : Option Int
  courierPayoutAmount : Option Int
deriving DecidableEq

/-- `Transaction` (ledger entry) model.  `refId` is the
`reference_id` (a hold / dispute / MoMo-payment identifier). -/
structure Txn where
  walletId : Nat
  ttype : TxnType
  amount : Int
  fee : Int
  netAmount : Int
  balanceAfter : Int
  status : TxnStatus
  refType : String
  refId : Nat
deriving DecidableEq

/-- `MoMoPayment` model.  The assoc-list key under which a record is
stored doubles as its externally-issued idempotency key
(`external_transaction_id`), which the source generates fresh per
record and looks up uniquely.  `txnIdx` is the index of the linked
ledger entry in the append-only transaction list. -/
structure MoMo where
  walletId : Nat
  txnIdx : Nat
  direction : MoMoDirection
  amount : Int
  fee : Int
  status : MoMoStatus
deriving DecidableEq

/-- `PayoutSchedule` model. -/
structure Payout where
  courierId : Nat
  walletId : Nat
  escrowId : Nat
  tripId : Nat
  amount : Int
  status : PayoutStatus
deriving DecidableEq

/-- Error taxonomy of the endpoints: the HTTP status class plus the
`detail` message. -/
inductive Err where
  | notFound : String → Err
  | badRequest : String → Err
  | conflict : String → Err
  | forbidden : String → Err
deriving DecidableEq

/-- A caller identity as delivered by the auth dependencies: the user
id plus whether the user holds the `system_admin` / `org_admin` role. -/
structure Caller where
  id : Nat
  admin : Bool
deriving DecidableEq

/-- The database state visible to the settlement engine.  Each entity
table is an assoc list from id to record; `txns` and `payouts` are
append-only lists; `nextId` is the fresh-identifier source. -/
structure St where
  wallets : List (Nat × Wallet)
  trips : List (Nat × Trip)
  holds : List (Nat × Hold)
  disputes : List (Nat × DisputeR)
  momos : List (Nat × MoMo)
  txns : List Txn
  payouts : List Payout
  nextId : Nat
deriving DecidableEq

/-- Equality of endpoint outcomes is decidable (used to evaluate
counterexamples on concrete states). -/
instance : DecidableEq (Except Err St)
  | .error a, .error b =>
      if h : a = b then .isTrue (by rw [h])
      else .isFalse (by intro hc; cases hc; exact h rfl)
  | .error _, .ok _ => .isFalse (by intro hc; cases hc)
  | .ok _, .error _ => .isFalse (by intro hc; cases hc)
  | .ok a, .ok b =>
      if h : a = b then .isTrue (by rw [h])
      else .isFalse (by intro hc; cases hc; exact h rfl)

/-! ## Assoc-list primitives -/

/-- First-match association lookup (the unique-key `SELECT ... WHERE id = k`). -/
def lookupA {α : Type} (l : List (Nat × α)) (k : Nat) : Option α :=
  match l with
  | [] => none
  | (k', v) :: t => if k' = k then some v else lookupA t k

/-- Replace the record stored under key `k` (row update). -/
def updateA {α : Type} (l : List (Nat × α)) (k : Nat) (v : α) : List (Nat × α) :=
  match l with
  | [] => []
  | (k', v') :: t => if k' = k then (k, v) :: updateA t k v else (k', v') :: updateA t k v

/-- Wallet lookup by owner (`SELECT ... WHERE user_id = uid AND currency = 'GHS'`). -/
def findWalletByUser (s : St) (uid : Nat) : Option (Nat × Wallet) :=
  s.wallets.find? fun p => p.2.userId == uid

/-- Update one wallet row in the state. -/
def setW (s : St) (wid : Nat) (w : Wallet) : St :=
  { s with wallets := updateA s.wallets wid w }

/-- Update the ledger entry at index `i`, if it exists (the source
guards with `if momo.transaction_id:` / `if txn:`). -/
def updTxnAt (l : List Txn) (i : Nat) (f : Txn → Txn) : List Txn :=
  match l.get? i with
  | some t => l.set i (f t)
  | none => l

/-! ## Monetary arithmetic -/

/-- Round-half-up of the rational `n / d` (for a positive denominator
`d`), in executable integer form: the effect of Python's `round(x, 2)`
on the quantities involved, expressed in minor units.  Agrees with the
mathematical `round : ℚ → ℤ` (`roundRat_eq_round`). -/
def roundRat (n : Int) (d : ℕ) : Int := (2 * n + d) / (2 * d)

/-- `round(amount * rate, 2)` of `release_escrow` / `resolve_dispute`,
on an `amount` given in minor units and a commission rate given in
basis points (`rate / 10000` is the rate proper): the commission in
minor units. -/
def commissionCents (rate : Int) (amount : Int) : Int :=
  roundRat (amount * rate) 10000

/-- `round(max(0.50, min(amount * 0.01, 10.00)), 2)` of
`withdraw_momo`, on an `amount` given in minor units: 1 % of the amount
clamped to [GHS 0.50, GHS 10.00], in minor units.  The clamp bounds are
whole numbers of minor units and rounding is monotone, so rounding the
clamped value equals clamping the rounded value
(`feeCents_eq_formula`). -/
def feeCents (amount : Int) : Int :=
  max 50 (min (roundRat amount 100) 1000)

/-- The module constant `PLATFORM_COMMISSION_RATE = 0.05` of
`endpoints/escrow.py` (5 % = 500 basis points).  Operations that read
this global receive the value in effect at the instant of the call as
an explicit argument. -/
def PLATFORM_RATE_BP : Int := 500

/-- Python's `str.lower()` on the ASCII status strings involved
(character-wise lower-casing). -/
def pyLower (s : String) : String := ⟨s.data.map Char.toLower⟩

end LoadMove

namespace LoadMove

/-- Available balance of the wallet row `wid` as the source reads it
when taking a `balance_after` snapshot (reading the live row). -/
def balOf (s : St) (wid : Nat) : Int :=
  ((lookupA s.wallets wid).map Wallet.balance).getD 0

/-- `get_or_create_wallet` of `endpoints/wallets.py`: return the wallet
for the user (single currency), creating a zero-balance active wallet
if absent. -/
def getOrCreateWallet (uid : Nat) (s : St) : Nat × Wallet × St :=
  match findWalletByUser s uid with
  | some (wid, w) => (wid, w, s)
  | none =>
      let w : Wallet :=
        { userId := uid, balance := 0, escrowBalance := 0, totalDeposited := 0,
          totalWithdrawn := 0, totalEarned := 0, status := .active }
      (s.nextId, w, { s with wallets := s.wallets ++ [(s.nextId, w)], nextId := s.nextId + 1 })

/-- `create_escrow_hold` (`POST /escrow/hold-for-trip`,
`endpoints/escrow.py`).  `rate` is the value of the module global
`PLATFORM_COMMISSION_RATE` at the instant of the call.  The "`Trip has
no associated bid`" / "`no associated listing`" branches are not
representable because the model's `Trip` always carries its bid amount
and its listing's shipper. -/
def createEscrowHold (rate : Int) (tripId : Nat) (s : St) : Except Err St :=
  match lookupA s.trips tripId with
  | none => .error (.notFound "Trip not found")
  | some trip =>
    if trip.status = TripStatus.pickupPending then
      match s.holds.find? (fun p => p.2.tripId == tripId) with
      | some _ => .error (.conflict "Escrow already exists for this trip")
      | none =>
        let amount := trip.bidAmount
        match findWalletByUser s trip.shipperId with
        | none => .error (.badRequest "Shipper does not have a wallet. Please deposit funds first.")
        | some (swid, sw) =>
          if sw.status = WalletStatus.active then
            if sw.balance < amount then
              .error (.badRequest "Insufficient shipper balance")
            else
              let courierWid := (findWalletByUser s trip.courierId).map Prod.fst
              let sw' := { sw with balance := sw.balance - amount,
                                   escrowBalance := sw.escrowBalance + amount }
              let s1 := setW s swid sw'
              let hid := s1.nextId
              let hold : Hold :=
                { tripId := tripId, shipperWalletId := swid, courierWalletId := courierWid,
                  amount := amount, rate := rate, commissionAmount := none,
                  payoutAmount := none, status := .held }
              let txn : Txn :=
                { walletId := swid, ttype := .escrowHold, amount := amount, fee := 0,
                  netAmount := amount, balanceAfter := balOf s1 swid, status := .completed,
                  refType := "escrow", refId := hid }
              .ok { s1 with holds := s1.holds ++ [(hid, hold)],
                            txns := s1.txns ++ [txn], nextId := s1.nextId + 1 }
          else .error (.badRequest "Shipper wallet is frozen or closed")
    else .error (.badRequest "Trip must be in pickup_pending status")

/-- The get-or-create of the courier wallet performed by
`release_escrow` and `resolve_dispute`: fetch the wallet row referenced
by the hold's `courier_wallet_id` if it exists, otherwise create a
fresh zero-balance active wallet for `uid`.  Returns the wallet id, the
fetched row, and the (possibly extended) state. -/
def getOrCreateCourierWallet (cwid : Option Nat) (uid : Nat) (s : St) :
    Nat × Wallet × St :=
  match cwid.bind (fun cid => (lookupA s.wallets cid).map (fun w => (cid, w))) with
  | some (cid, w) => (cid, w, s)
  | none =>
    let nw : Wallet :=
      { userId := uid, balance := 0, escrowBalance := 0, totalDeposited := 0,
        totalWithdrawn := 0, totalEarned := 0, status := .active }
    (s.nextId, nw,
      { s with wallets := s.wallets ++ [(s.nextId, nw)], nextId := s.nextId + 1 })

/-- `release_escrow` (`POST /escrow/{id}/release`).  `rate` is the value
of the module global `PLATFORM_COMMISSION_RATE` read at this call (the
source computes `round(amount * PLATFORM_COMMISSION_RATE, 2)` from the
global, not from the rate stored on the hold). -/
def releaseEscrow (rate : Int) (u : Caller) (escrowId : Nat) (s : St) : Except Err St :=
  match lookupA s.holds escrowId with
  | none => .error (.notFound "Escrow hold not found")
  | some escrow =>
    if escrow.status = EscrowStatus.held then
      match lookupA s.trips escrow.tripId with
      | none => .error (.badRequest "Associated trip not found")
      | some trip =>
        if trip.status = TripStatus.confirmed then
          if trip.shipperId = u.id ∨ u.admin then
            let amount := escrow.amount
            let commission := commissionCents rate amount
            let payout := amount - commission
            match lookupA s.wallets escrow.shipperWalletId with
            | none => .error (.notFound "Shipper wallet row missing")
            | some sw =>
              let sw' := { sw with escrowBalance := sw.escrowBalance - amount }
              let s1 := setW s escrow.shipperWalletId sw'
              let g := getOrCreateCourierWallet escrow.courierWalletId trip.courierId s1
              let cid := g.1
              let cw := g.2.1
              let s2 := g.2.2
              let cw' := { cw with balance := cw.balance + payout,
                                   totalEarned := cw.totalEarned + payout }
              let s3 := setW s2 cid cw'
              let escrow' :=
                { escrow with commissionAmount := some commission,
                              payoutAmount := some payout, status := .released,
                              courierWalletId := some cid }
              let s4 := { s3 with holds := updateA s3.holds escrowId escrow' }
              let t1 : Txn :=
                { walletId := escrow.shipperWalletId, ttype := .escrowRelease,
                  amount := amount, fee := 0, netAmount := amount,
                  balanceAfter := balOf s4 escrow.shipperWalletId, status := .completed,
                  refType := "escrow", refId := escrowId }
              let t2 : Txn :=
                { walletId := escrow.shipperWalletId, ttype := .commission,
                  amount := commission, fee := 0, netAmount := commission,
                  balanceAfter := balOf s4 escrow.shipperWalletId, status := .completed,
                  refType := "escrow", refId := escrowId }
              let t3 : Txn :=
                { walletId := cid, ttype := .escrowRelease, amount := payout,
                  fee := commission, netAmount := payout,
                  balanceAfter := balOf s4 cid, status := .completed,
                  refType := "escrow", refId := escrowId }
              let po : Payout :=
                { courierId := trip.courierId, walletId := cid, escrowId := escrowId,
                  tripId := escrow.tripId, amount := payout, status := .completed }
              .ok { s4 with txns := s4.txns ++ [t1, t2, t3],
                            payouts := s4.payouts ++ [po] }
          else .error (.forbidden "Only the shipper or admin can release escrow")
        else .error (.badRequest "Trip must be confirmed before escrow release")
    else .error (.badRequest "Escrow is not in held status")

/-- `refund_escrow` (`POST /escrow/{id}/refund`, `system_admin` only). -/
def refundEscrow (u : Caller) (escrowId : Nat) (s : St) : Except Err St :=
  if u.admin then
    match lookupA s.holds escrowId with
    | none => .error (.notFound "Escrow hold not found")
    | some escrow =>
      if escrow.status = EscrowStatus.held ∨ escrow.status = EscrowStatus.disputed then
        match lookupA s.wallets escrow.shipperWalletId with
        | none => .error (.notFound "Shipper wallet row missing")
        | some sw =>
          let amount := escrow.amount
          let sw' := { sw with balance := sw.balance + amount,
                               escrowBalance := sw.escrowBalance - amount }
          let s1 := setW s escrow.shipperWalletId sw'
          let s2 := { s1 with holds := updateA s1.holds escrowId { escrow with status := .refunded } }
          let txn : Txn :=
            { walletId := escrow.shipperWalletId, ttype := .escrowRefund, amount := amount,
              fee := 0, netAmount := amount, balanceAfter := balOf s2 escrow.shipperWalletId,
              status := .completed, refType := "escrow", refId := escrowId }
          .ok { s2 with txns := s2.txns ++ [txn] }
      else .error (.badRequest "Cannot refund escrow with this status")
  else .error (.forbidden "System admin role required")

/-- `open_dispute` (`POST /disputes`).  The caller must be the trip's
shipper or courier.  Note the source flips the escrow to `disputed`
only when it is currently `held`; a hold in any other state is left as
it is, while the dispute record is still created. -/
def openDispute (u : Caller) (tripId : Nat) (s : St) : Except Err St :=
  match lookupA s.trips tripId with
  | none => .error (.notFound "Trip not found")
  | some trip =>
    if trip.status = TripStatus.delivered ∨ trip.status = TripStatus.confirmed then
      if trip.shipperId = u.id ∨ trip.courierId = u.id then
        let against := if trip.shipperId = u.id then trip.courierId else trip.shipperId
        match s.holds.find? (fun p => p.2.tripId == tripId) with
        | none => .error (.badRequest "No escrow hold found for this trip. Cannot open a dispute.")
        | some (hid, hold) =>
          if s.disputes.any (fun p => p.2.tripId == tripId &&
              (p.2.status == DisputeStatus.opened || p.2.status == DisputeStatus.underReview ||
               p.2.status == DisputeStatus.escalated)) then
            .error (.conflict "A dispute is already open for this trip")
          else
            let s1 := { s with trips := updateA s.trips tripId { trip with status := .disputed } }
            let hold' := if hold.status = EscrowStatus.held then { hold with status := .disputed } else hold
            let s2 := { s1 with holds := updateA s1.holds hid hold' }
            let d : DisputeR :=
              { tripId := tripId, escrowId := hid, raisedBy := u.id, againstUser := against,
                status := .opened, shipperRefundAmount := none, courierPayoutAmount := none }
            .ok { s2 with disputes := s2.disputes ++ [(s2.nextId, d)], nextId := s2.nextId + 1 }
      else .error (.forbidden "Only the shipper or courier can open a dispute")
    else .error (.badRequest "Cannot dispute a trip with this status")

/-- The shipper-refund component of a split dispute resolution
(`resolve_dispute`, `resolved_split` branch): written only when the
refund amount is non-zero.  `sw1` is the shipper wallet row as already
mutated by the preceding escrow-balance decrement. -/
def splitRefundStage (wid : Nat) (sw1 : Wallet) (r : Int) (did : Nat) (s : St) : St :=
  if r > 0 then
    let sw2 := { sw1 with balance := sw1.balance + r }
    let s2a := setW s wid sw2
    { s2a with txns := s2a.txns ++
      [{ walletId := wid, ttype := .escrowRefund, amount := r, fee := 0, netAmount := r,
         balanceAfter := balOf s2a wid,
         status := .completed, refType := "dispute", refId := did }] }
  else s

/-- The courier-payout component of a split dispute resolution: written
only when the payout amount is non-zero; gets or creates the courier
wallet first. -/
def splitPayoutStage (cwid : Option Nat) (fallbackUid : Nat) (p : Int) (did : Nat)
    (s : St) : St :=
  if p > 0 then
    let g := getOrCreateCourierWallet cwid fallbackUid s
    let cid := g.1
    let cw := g.2.1
    let s2b := g.2.2
    let cw' := { cw with balance := cw.balance + p, totalEarned := cw.totalEarned + p }
    let s2c := setW s2b cid cw'
    { s2c with txns := s2c.txns ++
      [{ walletId := cid, ttype := .escrowRelease, amount := p, fee := 0,
         netAmount := p, balanceAfter := balOf s2c cid,
         status := .completed, refType := "dispute", refId := did }] }
  else s

/-- The platform-take component of a split dispute resolution: a
commission ledger entry on the shipper wallet, written only when the
retained remainder is non-zero. -/
def splitTakeStage (wid : Nat) (take : Int) (did : Nat) (s : St) : St :=
  if take > 0 then
    { s with txns := s.txns ++
      [{ walletId := wid, ttype := .commission, amount := take, fee := 0,
         netAmount := take, balanceAfter := balOf s wid,
         status := .completed, refType := "dispute", refId := did }] }
  else s

/-- `resolve_dispute` (`POST /disputes/{id}/resolve`, `system_admin`
only).  `rate` is the value of the module global
`PLATFORM_COMMISSION_RATE` at this call.  `shipperRefundReq` /
`courierPayoutReq` model the optional request amounts; the source
coalesces a missing or zero value to `0` with `or 0`.  Note the handler
checks only the dispute's status — it never inspects the escrow hold's
state.  In the unreachable branches where the wallet-creation fallback
user id is taken from a missing trip, the source would crash on a
`None` user id (favour-courier) or invent a fresh UUID (split); both
are modelled by a default id. -/
def resolveDispute (rate : Int) (u : Caller) (disputeId : Nat) (res : Resolution)
    (shipperRefundReq courierPayoutReq : Option Int) (s : St) : Except Err St :=
  if u.admin then
    match lookupA s.disputes disputeId with
    | none => .error (.notFound "Dispute not found")
    | some d =>
      if d.status = DisputeStatus.opened ∨ d.status = DisputeStatus.underReview ∨
          d.status = DisputeStatus.escalated then
        match lookupA s.holds d.escrowId with
        | none => .error (.badRequest "No escrow associated with this dispute")
        | some escrow =>
          let amount := escrow.amount
          match lookupA s.wallets escrow.shipperWalletId with
          | none => .error (.notFound "Shipper wallet row missing")
          | some sw =>
            let trip := lookupA s.trips d.tripId
            match res with
            | .shipper =>
              let sw' := { sw with balance := sw.balance + amount,
                                   escrowBalance := sw.escrowBalance - amount }
              let s1 := setW s escrow.shipperWalletId sw'
              let txn : Txn :=
                { walletId := escrow.shipperWalletId, ttype := .escrowRefund,
                  amount := amount, fee := 0, netAmount := amount,
                  balanceAfter := balOf s1 escrow.shipperWalletId, status := .completed,
                  refType := "dispute", refId := disputeId }
              let escrow' := { escrow with status := .refunded }
              let d' := { d with shipperRefundAmount := some amount,
                                 courierPayoutAmount := some 0,
                                 status := .resolvedShipper }
              .ok { s1 with holds := updateA s1.holds d.escrowId escrow',
                            disputes := updateA s1.disputes disputeId d',
                            txns := s1.txns ++ [txn] }
            | .courier =>
              let commission := commissionCents rate amount
              let payout := amount - commission
              let sw' := { sw with escrowBalance := sw.escrowBalance - amount }
              let s1 := setW s escrow.shipperWalletId sw'
              let g := getOrCreateCourierWallet escrow.courierWalletId
                ((trip.map Trip.courierId).getD (escrow.courierWalletId.getD 0)) s1
              let cid := g.1
              let cw := g.2.1
              let s2 := g.2.2
              let cw' := { cw with balance := cw.balance + payout,
                                   totalEarned := cw.totalEarned + payout }
              let s3 := setW s2 cid cw'
              let tc : Txn :=
                { walletId := escrow.shipperWalletId, ttype := .commission,
                  amount := commission, fee := 0, netAmount := commission,
                  balanceAfter := balOf s3 escrow.shipperWalletId, status := .completed,
                  refType := "dispute", refId := disputeId }
              let tr : Txn :=
                { walletId := cid, ttype := .escrowRelease, amount := payout,
                  fee := commission, netAmount := payout, balanceAfter := balOf s3 cid,
                  status := .completed, refType := "dispute", refId := disputeId }
              let escrow' := { escrow with commissionAmount := some commission,
                                           payoutAmount := some payout, status := .released }
              let d' := { d with courierPayoutAmount := some payout,
                                 shipperRefundAmount := some 0,
                                 status := .resolvedCourier }
              .ok { s3 with holds := updateA s3.holds d.escrowId escrow',
                            disputes := updateA s3.disputes disputeId d',
                            txns := s3.txns ++ [tc, tr] }
            | .split =>
              let r := shipperRefundReq.getD 0
              let p := courierPayoutReq.getD 0
              if r + p > amount then
                .error (.badRequest "Split amounts exceed escrow amount")
              else
                let sw1 := { sw with escrowBalance := sw.escrowBalance - amount }
                let s1 := setW s escrow.shipperWalletId sw1
                let s2 := splitRefundStage escrow.shipperWalletId sw1 r disputeId s1
                let s3 := splitPayoutStage escrow.courierWalletId
                  ((trip.map Trip.courierId).getD 0) p disputeId s2
                let take := amount - r - p
                let s4 := splitTakeStage escrow.shipperWalletId take disputeId s3
                let escrow' := { escrow with status := .partlyReleased,
                                             payoutAmount := some p,
                                             commissionAmount := some take }
                let d' := { d with shipperRefundAmount := some r,
                                   courierPayoutAmount := some p,
                                   status := .resolvedSplit }
                .ok { s4 with holds := updateA s4.holds d.escrowId escrow',
                              disputes := updateA s4.disputes disputeId d' }
      else .error (.badRequest "Cannot resolve dispute with this status")
  else .error (.forbidden "System admin role required")

/-- `deposit_momo` (`POST /wallets/me/deposit`).  Creates a pending
ledger entry and a pending collection `MoMoPayment`; the wallet row is
not touched.  Per the request schema, `0 < amount ≤ 50000.00` GHS. -/
def depositMomo (uid : Nat) (amount : Int) (s : St) : Except Err St :=
  let g := getOrCreateWallet uid s
  let wid := g.1
  let w := g.2.1
  let s0 := g.2.2
  if w.status = WalletStatus.active then
    let momoId := s0.nextId
    let txn : Txn :=
      { walletId := wid, ttype := .deposit, amount := amount, fee := 0,
        netAmount := amount, balanceAfter := w.balance, status := .pending,
        refType := "momo_payment", refId := momoId }
    let momo : MoMo :=
      { walletId := wid, txnIdx := s0.txns.length, direction := .collection,
        amount := amount, fee := 0, status := .pending }
    .ok { s0 with txns := s0.txns ++ [txn], momos := s0.momos ++ [(momoId, momo)],
                  nextId := s0.nextId + 1 }
  else .error (.badRequest "Wallet is frozen or closed")

/-- `withdraw_momo` (`POST /wallets/me/withdraw`).  Fee: 1 % of the
amount, clamped to [GHS 0.50, GHS 10.00]; the amount plus the fee is
debited immediately (optimistic debit) and `total_withdrawn` grows by
the amount; the ledger entry starts in `processing`. -/
def withdrawMomo (uid : Nat) (amount : Int) (s : St) : Except Err St :=
  let g := getOrCreateWallet uid s
  let wid := g.1
  let w := g.2.1
  let s0 := g.2.2
  if w.status = WalletStatus.active then
    let fee := feeCents amount
    let totalDebit := amount + fee
    if w.balance < totalDebit then
      .error (.badRequest "Insufficient balance")
    else
      let w' := { w with balance := w.balance - totalDebit,
                         totalWithdrawn := w.totalWithdrawn + amount }
      let s1 := setW s0 wid w'
      let momoId := s1.nextId
      let txn : Txn :=
        { walletId := wid, ttype := .withdrawal, amount := amount, fee := fee,
          netAmount := amount, balanceAfter := w'.balance, status := .processing,
          refType := "momo_payment", refId := momoId }
      let momo : MoMo :=
        { walletId := wid, txnIdx := s1.txns.length, direction := .disbursement,
          amount := amount, fee := fee, status := .pending }
      .ok { s1 with txns := s1.txns ++ [txn], momos := s1.momos ++ [(momoId, momo)],
                    nextId := s1.nextId + 1 }
  else .error (.badRequest "Wallet is frozen or closed")

/-- `momo_callback` (`POST /wallets/momo-callback`).  Looks the payment
up by its idempotency key; a record already in `success` or `failed` is
acknowledged without re-applying any effect.  A recognised first-time
status applies the deposit credit / withdrawal completion / withdrawal
reversal; any other status string falls through and changes nothing.
Returns the acknowledgement message together with the new state. -/
def momoCallback (key : Nat) (stStr : String) (s : St) : Except Err (St × String) :=
  match lookupA s.momos key with
  | none => .error (.notFound "MoMo payment not found")
  | some m =>
    if m.status = MoMoStatus.success ∨ m.status = MoMoStatus.failed then
      .ok (s, "Payment already processed")
    else
      let low := pyLower stStr
      if low = "success" then
        let s1 := { s with momos := updateA s.momos key { m with status := .success } }
        if m.direction = MoMoDirection.collection then
          match lookupA s1.wallets m.walletId with
          | none => .error (.notFound "Wallet row missing")
          | some w =>
            let w' := { w with balance := w.balance + m.amount,
                               totalDeposited := w.totalDeposited + m.amount }
            let s2 := setW s1 m.walletId w'
            let s3 := { s2 with txns := (updTxnAt s2.txns m.txnIdx
                          fun t => { t with status := .completed, balanceAfter := w'.balance }) }
            .ok (s3, "Callback processed: " ++ stStr)
        else
          .ok ({ s1 with txns := (updTxnAt s1.txns m.txnIdx
                    fun t => { t with status := .completed }) },
               "Callback processed: " ++ stStr)
      else if low = "failed" ∨ low = "timeout" ∨ low = "cancelled" then
        let s1 := { s with momos := updateA s.momos key { m with status := .failed } }
        if m.direction = MoMoDirection.disbursement then
          match lookupA s1.wallets m.walletId with
          | none => .error (.notFound "Wallet row missing")
          | some w =>
            let w' := { w with balance := w.balance + (m.amount + m.fee),
                               totalWithdrawn := w.totalWithdrawn - m.amount }
            let s2 := setW s1 m.walletId w'
            .ok ({ s2 with txns := (updTxnAt s2.txns m.txnIdx
                      fun t => { t with status := .failed }) },
                 "Callback processed: " ++ stStr)
        else
          .ok ({ s1 with txns := (updTxnAt s1.txns m.txnIdx
                    fun t => { t with status := .failed }) },
               "Callback processed: " ++ stStr)
      else .ok (s, "Callback processed: " ++ stStr)

end LoadMove

namespace LoadMove

/-! ## Conservation of money: definitions (claim C1) -/

/-- A wallet's locked-in money: available plus escrow balance. -/
def wval (w : Wallet) : Int := w.balance + w.escrowBalance

/-- Sum of available + escrow balances over all wallet rows. -/
def wsum (l : List (Nat × Wallet)) : Int := (l.map fun p => wval p.2).sum

/-- Sum of the amounts of the completed ledger entries of one kind. -/
def sumBy (ts : List Txn) (ty : TxnType) : Int :=
  ((ts.filter fun t => t.ttype == ty && t.status == TxnStatus.completed).map Txn.amount).sum

/-- The conservation equation of spec §8: available + escrow money plus
the cumulative platform commission recorded in the ledger equals
completed deposits minus completed withdrawals. -/
def conserved (s : St) : Prop :=
  wsum s.wallets + sumBy s.txns TxnType.commission =
    sumBy s.txns TxnType.deposit - sumBy s.txns TxnType.withdrawal

/-- Keys of an entity table. -/
def keysOf {α : Type} (l : List (Nat × α)) : List Nat := l.map Prod.fst

/-- Key discipline of the wallet table: wallet ids are unique and below
the fresh-id counter (true of every state the persistence layer can
produce: primary keys are unique and drawn from the id generator). -/
def WFw (s : St) : Prop :=
  (keysOf s.wallets).Nodup ∧ ∀ k ∈ keysOf s.wallets, k < s.nextId

instance (s : St) : Decidable (WFw s) := by unfold WFw; infer_instance

instance (s : St) : Decidable (conserved s) := by unfold conserved; infer_instance

/-- One escrow-engine operation of the kind quantified over by the
conservation claim: hold creation, release, refund, or an
administrator dispute resolution (in particular a split).  Each money
operation carries the value the module global
`PLATFORM_COMMISSION_RATE` has when it runs. -/
inductive EOp where
  | create (rate : Int) (tripId : Nat)
  | release (rate : Int) (u : Caller) (escrowId : Nat)
  | refund (u : Caller) (escrowId : Nat)
  | resolve (rate : Int) (u : Caller) (disputeId : Nat) (res : Resolution)
      (shipperRefundReq courierPayoutReq : Option Int)

/-- Run one operation; a rejected operation rolls its transaction back
and leaves the state unchanged. -/
def applyEOp (o : EOp) (s : St) : St :=
  match o with
  | .create rate tid =>
      match createEscrowHold rate tid s with | .ok s' => s' | .error _ => s
  | .release rate u eid =>
      match releaseEscrow rate u eid s with | .ok s' => s' | .error _ => s
  | .refund u eid =>
      match refundEscrow u eid s with | .ok s' => s' | .error _ => s
  | .resolve rate u did res r p =>
      match resolveDispute rate u did res r p s with | .ok s' => s' | .error _ => s

/-- Run a sequence of escrow-engine operations. -/
def applyEOps (l : List EOp) (s : St) : St := l.foldl (fun s o => applyEOp o s) s

/-- The request-schema constraint relevant to conservation: the split
amounts of `ResolveDisputeRequest` are validated with `ge=0` by the API
layer before `resolve_dispute` runs, so the handler only ever sees
non-negative (or absent) split amounts. -/
def ValidEOp : EOp → Prop
  | .resolve _ _ _ _ r p => 0 ≤ r.getD 0 ∧ 0 ≤ p.getD 0
  | _ => True

instance (o : EOp) : Decidable (ValidEOp o) :=
  match o with
  | .create _ _ => .isTrue trivial
  | .release _ _ _ => .isTrue trivial
  | .refund _ _ => .isTrue trivial
  | .resolve _ _ _ _ _ _ => inferInstanceAs (Decidable (_ ∧ _))

/-- A concrete funded state for exercising the conservation theorem:
two wallets (a shipper funded by one completed deposit of GHS 1000.00,
of which GHS 300.00 is locked under a disputed hold, and an empty
courier wallet), one trip still awaiting escrow and one confirmed trip
with the disputed hold, and one open dispute. -/
def c1s0 : St :=
  { wallets :=
      [(0, { userId := 1, balance := 70000, escrowBalance := 30000,
             totalDeposited := 100000, totalWithdrawn := 0, totalEarned := 0,
             status := .active }),
       (1, { userId := 2, balance := 0, escrowBalance := 0, totalDeposited := 0,
             totalWithdrawn := 0, totalEarned := 0, status := .active })],
    trips :=
      [(10, { shipperId := 1, courierId := 2, bidAmount := 50000, status := .pickupPending }),
       (11, { shipperId := 1, courierId := 2, bidAmount := 30000, status := .confirmed })],
    holds :=
      [(21, { tripId := 11, shipperWalletId := 0, courierWalletId := some 1,
              amount := 30000, rate := 500, commissionAmount := none,
              payoutAmount := none, status := .disputed })],
    disputes :=
      [(22, { tripId := 11, escrowId := 21, raisedBy := 1, againstUser := 2,
              status := .opened, shipperRefundAmount := none,
              courierPayoutAmount := none })],
    momos := [],
    txns :=
      [{ walletId := 0, ttype := .deposit, amount := 100000, fee := 0,
         netAmount := 100000, balanceAfter := 100000, status := .completed,
         refType := "momo_payment", refId := 5 }],
    payouts := [],
    nextId := 30 }

/-- A sequence exercising hold creation, a dispute-split resolution and
an administrator refund on `c1s0`. -/
def c1ops : List EOp :=
  [.create 500 10,
   .resolve 500 ⟨9, true⟩ 22 .split (some 10000) (some 15000),
   .refund ⟨9, true⟩ 30]

/-- A single-wallet state for closed instantiations: user 1 owns wallet
0 holding GHS 1000.00 available. -/
def c8w : Wallet :=
  { userId := 1, balance := 100000, escrowBalance := 0, totalDeposited := 100000,
    totalWithdrawn := 0, totalEarned := 0, status := .active }

def c8s0 : St :=
  { wallets := [(0, c8w)], trips := [], holds := [], disputes := [], momos := [],
    txns := [], payouts := [], nextId := 5 }

/-- A payment record already processed to `success`. -/
def c4m : MoMo :=
  { walletId := 0, txnIdx := 0, direction := .collection, amount := 20000,
    fee := 0, status := .success }

def c4s0 : St :=
  { wallets := [(0, c8w)], trips := [], holds := [], disputes := [],
    momos := [(3, c4m)], txns := [], payouts := [], nextId := 4 }

/-- A pending disbursement record awaiting its callback. -/
def c10m : MoMo :=
  { walletId := 0, txnIdx := 0, direction := .disbursement, amount := 10000,
    fee := 100, status := .pending }

def c10s0 : St :=
  { wallets := [(0, c8w)], trips := [], holds := [], disputes := [],
    momos := [(3, c10m)], txns := [], payouts := [], nextId := 4 }

/-- Split-resolution fixture (the spec's GHS 800.00 dispute example):
shipper wallet 0 with GHS 800.00 in escrow, courier wallet 1, one
disputed hold and one open dispute. -/
def c6sw : Wallet :=
  { userId := 1, balance := 10000, escrowBalance := 80000, totalDeposited := 90000,
    totalWithdrawn := 0, totalEarned := 0, status := .active }

def c6cw : Wallet :=
  { userId := 2, balance := 0, escrowBalance := 0, totalDeposited := 0,
    totalWithdrawn := 0, totalEarned := 0, status := .active }

def c6escrow : Hold :=
  { tripId := 10, shipperWalletId := 0, courierWalletId := some 1, amount := 80000,
    rate := 500, commissionAmount := none, payoutAmount := none, status := .disputed }

def c6d : DisputeR :=
  { tripId := 10, escrowId := 20, raisedBy := 1, againstUser := 2, status := .opened,
    shipperRefundAmount := none, courierPayoutAmount := none }

def c6s0 : St :=
  { wallets := [(0, c6sw), (1, c6cw)],
    trips := [(10, { shipperId := 1, courierId := 2, bidAmount := 80000,
                     status := .disputed })],
    holds := [(20, c6escrow)], disputes := [(21, c6d)], momos := [], txns := [],
    payouts := [], nextId := 30 }

/-- A trip (id 10) that has progressed to `in_transit` while its escrow
hold (id 20) is still `held` — the normal situation after pickup. -/
def c7s0 : St :=
  { wallets := [(0, c8w)],
    trips := [(10, { shipperId := 1, courierId := 2, bidAmount := 50000,
                     status := .inTransit })],
    holds := [(20, { tripId := 10, shipperWalletId := 0, courierWalletId := none,
                     amount := 50000, rate := 500, commissionAmount := none,
                     payoutAmount := none, status := .held })],
    disputes := [], momos := [], txns := [], payouts := [], nextId := 30 }

/-- Trip 10 of `c7s1`, still in `pickup_pending`. -/
def c7trip : Trip :=
  { shipperId := 1, courierId := 2, bidAmount := 50000, status := .pickupPending }

/-- A trip still in `pickup_pending` whose hold already exists. -/
def c7s1 : St :=
  { c7s0 with trips := [(10, c7trip)] }

/-- Extract the success state of an endpoint call (default: the input
state on error); used to chain concrete scenario states. -/
def okD (e : Except Err St) (d : St) : St :=
  match e with
  | .ok s => s
  | .error _ => d

/-- Shipper wallet for the rate-capture scenario: funds already in
escrow. -/
def c3sw : Wallet :=
  { userId := 1, balance := 0, escrowBalance := 50000, totalDeposited := 50000,
    totalWithdrawn := 0, totalEarned := 0, status := .active }

/-- Courier wallet for the rate-capture scenario. -/
def c3cw : Wallet :=
  { userId := 2, balance := 0, escrowBalance := 0, totalDeposited := 0,
    totalWithdrawn := 0, totalEarned := 0, status := .active }

/-- A hold created while the platform rate was 500 bp (5%): the rate is
captured on the hold. -/
def c3hold : Hold :=
  { tripId := 10, shipperWalletId := 0, courierWalletId := some 1, amount := 50000,
    rate := 500, commissionAmount := none, payoutAmount := none, status := .held }

/-- State between creation and release of hold 20: the trip has been
confirmed, and (the point of the scenario) the platform commission rate
has meanwhile been changed from 500 bp to 1000 bp. -/
def c3s1 : St :=
  { wallets := [(0, c3sw), (1, c3cw)],
    trips := [(10, { shipperId := 1, courierId := 2, bidAmount := 50000,
                     status := .confirmed })],
    holds := [(20, c3hold)],
    disputes := [], momos := [], txns := [], payouts := [], nextId := 30 }

/-- The state after releasing hold 20 while the platform rate is
1000 bp. -/
def c3s2 : St := okD (releaseEscrow 1000 ⟨1, false⟩ 20 c3s1) c3s1

/-- A fresh state in which hold creation succeeds: trip 10 is
`pickup_pending` and the shipper wallet is funded. -/
def c3s0 : St :=
  { wallets := [(0, { userId := 1, balance := 50000, escrowBalance := 0,
                      totalDeposited := 50000, totalWithdrawn := 0, totalEarned := 0,
                      status := .active })],
    trips := [(10, { shipperId := 1, courierId := 2, bidAmount := 50000,
                     status := .pickupPending })],
    holds := [], disputes := [], momos := [], txns := [], payouts := [], nextId := 30 }

/-- Shipper wallet of the terminal-hold scenario: 500.00 already in
escrow under hold 20. -/
def c2sw : Wallet :=
  { userId := 1, balance := 0, escrowBalance := 50000, totalDeposited := 50000,
    totalWithdrawn := 0, totalEarned := 0, status := .active }

/-- Courier wallet of the terminal-hold scenario. -/
def c2cw : Wallet :=
  { userId := 2, balance := 0, escrowBalance := 0, totalDeposited := 0,
    totalWithdrawn := 0, totalEarned := 0, status := .active }

/-- Terminal-hold scenario start: trip 10 confirmed, hold 20 `held`. -/
def c2s0 : St :=
  { wallets := [(0, c2sw), (1, c2cw)],
    trips := [(10, { shipperId := 1, courierId := 2, bidAmount := 50000,
                     status := .confirmed })],
    holds := [(20, { tripId := 10, shipperWalletId := 0, courierWalletId := some 1,
                     amount := 50000, rate := 500, commissionAmount := none,
                     payoutAmount := none, status := .held })],
    disputes := [], momos := [], txns := [], payouts := [], nextId := 30 }

/-- After the shipper releases hold 20: the hold is `released`
(terminal), the courier was paid 475.00. -/
def c2s1 : St := okD (releaseEscrow 500 ⟨1, false⟩ 20 c2s0) c2s0

/-- Hold 20 as it stands in `c2s1`: `released`, a terminal state. -/
def c2holdR : Hold :=
  { tripId := 10, shipperWalletId := 0, courierWalletId := some 1, amount := 50000,
    rate := 500, commissionAmount := some 2500, payoutAmount := some 47500,
    status := .released }

/-- After the shipper then opens a dispute on the (confirmed) trip:
dispute 30 is created in `open` while hold 20 stays `released`. -/
def c2s2 : St := okD (openDispute ⟨1, false⟩ 10 c2s1) c2s1

/-- After an admin resolves dispute 30 in favour of the shipper. -/
def c2s3 : St := okD (resolveDispute 500 ⟨9, true⟩ 30 .shipper none none c2s2) c2s2

/-- Dispute 30 as it stands in `c2s3`: resolved in the shipper's
favour. -/
def c2dR : DisputeR :=
  { tripId := 10, escrowId := 20, raisedBy := 1, againstUser := 2,
    status := .resolvedShipper, shipperRefundAmount := some 50000,
    courierPayoutAmount := some 0 }

/-! ## Assoc-list lemmas -/

theorem lookupA_append {α : Type} (l l' : List (Nat × α)) (k : Nat) :
    lookupA (l ++ l') k = ((lookupA l k).rec (lookupA l' k) fun v => some v) := by
  induction l with
  | nil => simp [lookupA]
  | cons h t ih =>
      obtain ⟨k', v⟩ := h
      by_cases hk : k' = k <;> simp [lookupA, hk, ih]

theorem lookupA_append_some {α : Type} {l : List (Nat × α)} {k : Nat} {v : α}
    (l' : List (Nat × α)) (h : lookupA l k = some v) :
    lookupA (l ++ l') k = some v := by
  rw [lookupA_append, h]

theorem lookupA_append_none {α : Type} {l : List (Nat × α)} {k : Nat}
    (l' : List (Nat × α)) (h : lookupA l k = none) :
    lookupA (l ++ l') k = lookupA l' k := by
  rw [lookupA_append, h]

theorem lookupA_eq_none_of_not_mem {α : Type} {l : List (Nat × α)} {k : Nat}
    (h : k ∉ keysOf l) : lookupA l k = none := by
  induction l with
  | nil => rfl
  | cons hd t ih =>
      obtain ⟨k', v⟩ := hd
      simp only [keysOf, List.map_cons, List.mem_cons, not_or] at h
      rw [lookupA, if_neg (fun hh => h.1 hh.symm)]
      exact ih (by simpa [keysOf] using h.2)

theorem mem_keysOf_of_lookupA {α : Type} {l : List (Nat × α)} {k : Nat} {v : α}
    (h : lookupA l k = some v) : k ∈ keysOf l := by
  by_contra hk
  rw [lookupA_eq_none_of_not_mem hk] at h
  cases h

theorem keysOf_updateA {α : Type} (l : List (Nat × α)) (k : Nat) (v : α) :
    keysOf (updateA l k v) = keysOf l := by
  induction l with
  | nil => rfl
  | cons hd t ih =>
      obtain ⟨k', w⟩ := hd
      by_cases hk : k' = k
      · subst hk
        simp only [updateA, if_pos rfl, keysOf, List.map_cons] at ih ⊢
        exact congrArg _ ih
      · simp only [updateA, if_neg hk, keysOf, List.map_cons] at ih ⊢
        exact congrArg _ ih

theorem updateA_of_not_mem {α : Type} {l : List (Nat × α)} {k : Nat} (v : α)
    (h : k ∉ keysOf l) : updateA l k v = l := by
  induction l with
  | nil => rfl
  | cons hd t ih =>
      obtain ⟨k', w⟩ := hd
      simp only [keysOf, List.map_cons, List.mem_cons, not_or] at h
      rw [updateA, if_neg (fun hh => h.1 hh.symm)]
      exact congrArg _ (ih (by simpa [keysOf] using h.2))

theorem lookupA_updateA_self {α : Type} {l : List (Nat × α)} {k : Nat} {w : α}
    (v : α) (h : lookupA l k = some w) :
    lookupA (updateA l k v) k = some v := by
  induction l with
  | nil => cases h
  | cons hd t ih =>
      obtain ⟨k', w'⟩ := hd
      by_cases hk : k' = k
      · rw [updateA, if_pos hk, lookupA, if_pos rfl]
      · rw [lookupA, if_neg hk] at h
        rw [updateA, if_neg hk, lookupA, if_neg hk]
        exact ih h

theorem lookupA_updateA_of_ne {α : Type} (l : List (Nat × α)) {k k' : Nat}
    (v : α) (h : k' ≠ k) : lookupA (updateA l k v) k' = lookupA l k' := by
  induction l with
  | nil => rfl
  | cons hd t ih =>
      obtain ⟨k0, w0⟩ := hd
      by_cases hk : k0 = k
      · rw [updateA, if_pos hk, lookupA, if_neg (fun hh => h hh.symm),
          lookupA, if_neg (fun hh => h (hk ▸ hh).symm)]
        exact ih
      · rw [updateA, if_neg hk, lookupA, lookupA]
        by_cases h0 : k0 = k'
        · rw [if_pos h0, if_pos h0]
        · rw [if_neg h0, if_neg h0]
          exact ih

theorem wsum_append (l l' : List (Nat × Wallet)) :
    wsum (l ++ l') = wsum l + wsum l' := by
  simp [wsum]

theorem wsum_updateA {l : List (Nat × Wallet)} {k : Nat} {w : Wallet}
    (v : Wallet) (hnd : (keysOf l).Nodup) (h : lookupA l k = some w) :
    wsum (updateA l k v) = wsum l + (wval v - wval w) := by
  induction l with
  | nil => cases h
  | cons hd t ih =>
      obtain ⟨k', w'⟩ := hd
      simp only [keysOf, List.map_cons, List.nodup_cons] at hnd
      by_cases hk : k' = k
      · subst hk
        rw [lookupA, if_pos rfl, Option.some.injEq] at h
        subst h
        rw [updateA, if_pos rfl,
          updateA_of_not_mem v (by simpa [keysOf] using hnd.1)]
        simp only [wsum, List.map_cons, List.sum_cons]
        ring
      · rw [lookupA, if_neg hk] at h
        rw [updateA, if_neg hk]
        have := ih hnd.2 h
        simp only [wsum, List.map_cons, List.sum_cons] at this ⊢
        omega

theorem sumBy_append (ts ts' : List Txn) (ty : TxnType) :
    sumBy (ts ++ ts') ty = sumBy ts ty + sumBy ts' ty := by
  simp [sumBy, List.filter_append]

end LoadMove

namespace LoadMove

/-! ## Per-operation preservation lemmas for conservation (C1) -/

theorem keysOf_append {α : Type} (l : List (Nat × α)) (k : Nat) (v : α) :
    keysOf (l ++ [(k, v)]) = keysOf l ++ [k] := by
  simp [keysOf]

theorem WFw_setW {s : St} {wid : Nat} (w : Wallet) (hwf : WFw s) :
    WFw (setW s wid w) := by
  obtain ⟨h1, h2⟩ := hwf
  exact ⟨by simpa [setW, keysOf_updateA] using h1,
         by simpa [setW, keysOf_updateA] using h2⟩

theorem sumBy_singleton (t : Txn) (ty : TxnType) :
    sumBy [t] ty = if t.ttype = ty ∧ t.status = TxnStatus.completed then t.amount else 0 := by
  simp only [sumBy, List.filter_cons, List.filter_nil, Bool.and_eq_true, beq_iff_eq]
  by_cases h1 : t.ttype = ty <;> by_cases h2 : t.status = TxnStatus.completed <;>
    simp [h1, h2]

theorem refund_preserves {u : Caller} {eid : Nat} {s s' : St}
    (hwf : WFw s) (hc : conserved s)
    (h : refundEscrow u eid s = .ok s') : WFw s' ∧ conserved s' := by
  unfold refundEscrow at h
  split at h
  · split at h
    · cases h
    · split at h
      · split at h
        · cases h
        · rw [Except.ok.injEq] at h
          subst h
          rename_i escrow hesc hst sw hsw
          constructor
          · exact ⟨by simpa [setW, keysOf_updateA] using hwf.1,
                   by simpa [setW, keysOf_updateA] using hwf.2⟩
          · unfold conserved at hc ⊢
            simp only [setW]
            rw [wsum_updateA _ hwf.1 hsw, sumBy_append, sumBy_append, sumBy_append,
              sumBy_singleton, sumBy_singleton, sumBy_singleton]
            simp only [wval]
            simp
            omega
      · cases h
  · cases h

theorem lookupA_of_mem {α : Type} {l : List (Nat × α)} {k : Nat} {v : α}
    (hnd : (keysOf l).Nodup) (h : (k, v) ∈ l) : lookupA l k = some v := by
  induction l with
  | nil => cases h
  | cons hd t ih =>
      obtain ⟨k0, v0⟩ := hd
      simp only [keysOf, List.map_cons, List.nodup_cons] at hnd
      rcases List.mem_cons.mp h with h1 | h1
      · rw [Prod.mk.injEq] at h1
        obtain ⟨rfl, rfl⟩ := h1
        simp [lookupA]
      · by_cases hk : k0 = k
        · subst hk
          exact absurd (by simpa [keysOf] using List.mem_map_of_mem Prod.fst h1) hnd.1
        · rw [lookupA, if_neg hk]
          exact ih hnd.2 h1

theorem create_preserves {rate : Int} {tid : Nat} {s s' : St}
    (hwf : WFw s) (hc : conserved s)
    (h : createEscrowHold rate tid s = .ok s') : WFw s' ∧ conserved s' := by
  unfold createEscrowHold at h
  split at h
  · cases h
  · split at h
    · split at h
      · cases h
      · split at h
        · cases h
        · split at h
          · simp only [] at h
            split at h
            · cases h
            · rw [Except.ok.injEq] at h
              subst h
              rename_i xt trip htrip hst xh hfind xw swid sw hswf hact hbal
              have hsw : lookupA s.wallets swid = some sw := by
                have hswf' : s.wallets.find? (fun p => p.2.userId == trip.shipperId)
                    = some (swid, sw) := hswf
                exact lookupA_of_mem hwf.1 (List.mem_of_find?_eq_some hswf')
              refine ⟨⟨?_, ?_⟩, ?_⟩
              · simpa [setW, keysOf_updateA] using hwf.1
              · intro k hk
                simp only [setW, keysOf_updateA] at hk
                have := hwf.2 k hk
                simp only [setW]
                omega
              · unfold conserved at hc ⊢
                simp only [setW]
                rw [wsum_updateA _ hwf.1 hsw, sumBy_append, sumBy_append, sumBy_append,
                  sumBy_singleton, sumBy_singleton, sumBy_singleton]
                simp only [wval]
                simp
                omega
          · cases h
    · cases h

theorem gocw_txns (cwid : Option Nat) (uid : Nat) (s : St) :
    (getOrCreateCourierWallet cwid uid s).2.2.txns = s.txns := by
  unfold getOrCreateCourierWallet
  split <;> rfl

theorem gocw_holds (cwid : Option Nat) (uid : Nat) (s : St) :
    (getOrCreateCourierWallet cwid uid s).2.2.holds = s.holds := by
  unfold getOrCreateCourierWallet
  split <;> rfl

theorem gocw_nextId (cwid : Option Nat) (uid : Nat) (s : St) :
    s.nextId ≤ (getOrCreateCourierWallet cwid uid s).2.2.nextId := by
  unfold getOrCreateCourierWallet
  split
  · exact le_refl _
  · exact Nat.le_succ _

theorem gocw_wsum (cwid : Option Nat) (uid : Nat) (s : St) :
    wsum (getOrCreateCourierWallet cwid uid s).2.2.wallets = wsum s.wallets := by
  unfold getOrCreateCourierWallet
  split
  · rfl
  · rw [wsum_append]
    simp [wsum, wval]

theorem gocw_WFw {s : St} (cwid : Option Nat) (uid : Nat) (hwf : WFw s) :
    (keysOf (getOrCreateCourierWallet cwid uid s).2.2.wallets).Nodup ∧
      ∀ k ∈ keysOf (getOrCreateCourierWallet cwid uid s).2.2.wallets,
        k < (getOrCreateCourierWallet cwid uid s).2.2.nextId := by
  unfold getOrCreateCourierWallet
  split
  · exact hwf
  · constructor
    · rw [keysOf_append, List.nodup_append]
      refine ⟨hwf.1, List.nodup_singleton _, ?_⟩
      intro a ha hb
      simp only [List.mem_singleton] at hb
      subst hb
      exact absurd (hwf.2 _ ha) (lt_irrefl _)
    · intro k hk
      rw [keysOf_append, List.mem_append] at hk
      rcases hk with hk | hk
      · exact Nat.lt_succ_of_lt (hwf.2 k hk)
      · simp only [List.mem_singleton] at hk
        subst hk
        exact Nat.lt_succ_self _

theorem gocw_lookup {s : St} (cwid : Option Nat) (uid : Nat) (hwf : WFw s) :
    lookupA (getOrCreateCourierWallet cwid uid s).2.2.wallets
        (getOrCreateCourierWallet cwid uid s).1 =
      some (getOrCreateCourierWallet cwid uid s).2.1 := by
  unfold getOrCreateCourierWallet
  split
  · rename_i p hp
    obtain ⟨cid, w⟩ := p
    rcases Option.bind_eq_some.mp hp with ⟨cid', hcid, hmap⟩
    rcases Option.map_eq_some'.mp hmap with ⟨w', hw', hpair⟩
    rw [Prod.mk.injEq] at hpair
    obtain ⟨rfl, rfl⟩ := hpair
    exact hw'
  · have hnone : lookupA s.wallets s.nextId = none :=
      lookupA_eq_none_of_not_mem (fun hmem => absurd (hwf.2 _ hmem) (lt_irrefl _))
    rw [lookupA_append_none _ hnone]
    simp [lookupA]

theorem sumBy_nil (ty : TxnType) : sumBy [] ty = 0 := rfl

theorem sumBy_cons (t : Txn) (ts : List Txn) (ty : TxnType) :
    sumBy (t :: ts) ty =
      (if t.ttype = ty ∧ t.status = TxnStatus.completed then t.amount else 0) + sumBy ts ty := by
  have := sumBy_append [t] ts ty
  simp only [List.singleton_append] at this
  rw [this, sumBy_singleton]

theorem setW_wallets (s : St) (wid : Nat) (w : Wallet) :
    (setW s wid w).wallets = updateA s.wallets wid w := rfl

theorem setW_txns (s : St) (wid : Nat) (w : Wallet) :
    (setW s wid w).txns = s.txns := rfl

theorem setW_nextId (s : St) (wid : Nat) (w : Wallet) :
    (setW s wid w).nextId = s.nextId := rfl

theorem setW_holds (s : St) (wid : Nat) (w : Wallet) :
    (setW s wid w).holds = s.holds := rfl

theorem setW_disputes (s : St) (wid : Nat) (w : Wallet) :
    (setW s wid w).disputes = s.disputes := rfl

theorem release_preserves {rate : Int} {u : Caller} {eid : Nat} {s s' : St}
    (hwf : WFw s) (hc : conserved s)
    (h : releaseEscrow rate u eid s = .ok s') : WFw s' ∧ conserved s' := by
  unfold releaseEscrow at h
  split at h
  · cases h
  · split at h
    · split at h
      · cases h
      · split at h
        · split at h
          · split at h
            · cases h
            · simp only [] at h
              rw [Except.ok.injEq] at h
              subst h
              rename_i xh escrow hesc hheld xt trip htrip hconf hauth xw sw hsw
              have hs1 : ∀ w, WFw (setW s escrow.shipperWalletId w) :=
                fun w => WFw_setW w hwf
              refine ⟨⟨?_, ?_⟩, ?_⟩
              · simp only [setW_wallets, keysOf_updateA]
                exact (gocw_WFw _ _ (hs1 _)).1
              · intro k hk
                simp only [setW_wallets, setW_nextId, keysOf_updateA] at hk ⊢
                exact (gocw_WFw _ _ (hs1 _)).2 k hk
              · unfold conserved at hc ⊢
                simp only [setW_wallets, setW_txns]
                rw [wsum_updateA _ (gocw_WFw _ _ (hs1 _)).1 (gocw_lookup _ _ (hs1 _)),
                  gocw_wsum, gocw_txns]
                simp only [setW_wallets, setW_txns]
                rw [wsum_updateA _ hwf.1 hsw]
                simp only [sumBy_append, sumBy_cons, sumBy_nil, sumBy_singleton]
                simp only [wval]
                simp
                omega
          · cases h
        · cases h
    · cases h

theorem splitRefundStage_props {s : St} {wid : Nat} {sw1 : Wallet} {r : Int} (did : Nat)
    (hr : 0 ≤ r) (hwf : WFw s) (hsw : lookupA s.wallets wid = some sw1) :
    WFw (splitRefundStage wid sw1 r did s) ∧
      wsum (splitRefundStage wid sw1 r did s).wallets = wsum s.wallets + r ∧
      (∀ ty, ty ≠ TxnType.escrowRefund →
        sumBy (splitRefundStage wid sw1 r did s).txns ty = sumBy s.txns ty) := by
  unfold splitRefundStage
  split
  · refine ⟨⟨?_, ?_⟩, ?_, ?_⟩
    · simp only [setW_wallets, keysOf_updateA]
      exact hwf.1
    · intro k hk
      simp only [setW_wallets, setW_nextId, keysOf_updateA] at hk ⊢
      exact hwf.2 k hk
    · simp only [setW_wallets]
      rw [wsum_updateA _ hwf.1 hsw]
      simp only [wval]
      omega
    · intro ty hty
      simp only [setW_txns, sumBy_append, sumBy_singleton]
      rw [if_neg]
      · omega
      · rintro ⟨h1, -⟩
        exact hty h1.symm
  · rename_i hnr
    have hz : r = 0 := by omega
    subst hz
    exact ⟨hwf, by omega, fun ty _ => rfl⟩

theorem splitPayoutStage_props {s : St} (cwid : Option Nat) (fu : Nat) {p : Int} (did : Nat)
    (hp : 0 ≤ p) (hwf : WFw s) :
    WFw (splitPayoutStage cwid fu p did s) ∧
      wsum (splitPayoutStage cwid fu p did s).wallets = wsum s.wallets + p ∧
      (∀ ty, ty ≠ TxnType.escrowRelease →
        sumBy (splitPayoutStage cwid fu p did s).txns ty = sumBy s.txns ty) := by
  unfold splitPayoutStage
  split
  · refine ⟨⟨?_, ?_⟩, ?_, ?_⟩
    · simp only [setW_wallets, keysOf_updateA]
      exact (gocw_WFw _ _ hwf).1
    · intro k hk
      simp only [setW_wallets, setW_nextId, keysOf_updateA] at hk ⊢
      exact (gocw_WFw _ _ hwf).2 k hk
    · simp only [setW_wallets]
      rw [wsum_updateA _ (gocw_WFw _ _ hwf).1 (gocw_lookup _ _ hwf), gocw_wsum]
      simp only [wval]
      omega
    · intro ty hty
      simp only [setW_txns, gocw_txns, sumBy_append, sumBy_singleton]
      rw [if_neg]
      · omega
      · rintro ⟨h1, -⟩
        exact hty h1.symm
  · rename_i hnp
    have hz : p = 0 := by omega
    subst hz
    exact ⟨hwf, by omega, fun ty _ => rfl⟩

theorem splitTakeStage_props {s : St} (wid : Nat) {take : Int} (did : Nat)
    (ht : 0 ≤ take) (hwf : WFw s) :
    WFw (splitTakeStage wid take did s) ∧
      wsum (splitTakeStage wid take did s).wallets = wsum s.wallets ∧
      sumBy (splitTakeStage wid take did s).txns TxnType.commission =
        sumBy s.txns TxnType.commission + take ∧
      (∀ ty, ty ≠ TxnType.commission →
        sumBy (splitTakeStage wid take did s).txns ty = sumBy s.txns ty) := by
  unfold splitTakeStage
  split
  · refine ⟨hwf, rfl, ?_, ?_⟩
    · simp only [sumBy_append, sumBy_singleton]
      simp
    · intro ty hty
      simp only [sumBy_append, sumBy_singleton]
      rw [if_neg]
      · omega
      · rintro ⟨h1, -⟩
        exact hty h1.symm
  · rename_i hnt
    have hz : take = 0 := by omega
    subst hz
    exact ⟨hwf, rfl, by omega, fun ty _ => rfl⟩

theorem resolve_preserves {rate : Int} {u : Caller} {did : Nat} {res : Resolution}
    {rr pp : Option Int} {s s' : St}
    (hr : 0 ≤ rr.getD 0) (hp : 0 ≤ pp.getD 0)
    (hwf : WFw s) (hc : conserved s)
    (h : resolveDispute rate u did res rr pp s = .ok s') : WFw s' ∧ conserved s' := by
  unfold resolveDispute at h
  split at h
  · split at h
    · cases h
    · split at h
      · split at h
        · cases h
        · split at h
          · cases h
          · simp only [] at h
            split at h
            · rw [Except.ok.injEq] at h
              subst h
              rename_i hadm xd d hd hst xe escrow hesc xw sw hsw res0
              refine ⟨⟨?_, ?_⟩, ?_⟩
              · simp only [setW_wallets, keysOf_updateA]
                exact hwf.1
              · intro k hk
                simp only [setW_wallets, setW_nextId, keysOf_updateA] at hk ⊢
                exact hwf.2 k hk
              · unfold conserved at hc ⊢
                simp only [setW_wallets, setW_txns]
                rw [wsum_updateA _ hwf.1 hsw]
                simp only [sumBy_append, sumBy_cons, sumBy_nil, sumBy_singleton, wval]
                simp
                omega
            · rw [Except.ok.injEq] at h
              subst h
              rename_i hadm xd d hd hst xe escrow hesc xw sw hsw res0
              have hs1 : ∀ w, WFw (setW s escrow.shipperWalletId w) :=
                fun w => WFw_setW w hwf
              refine ⟨⟨?_, ?_⟩, ?_⟩
              · simp only [setW_wallets, keysOf_updateA]
                exact (gocw_WFw _ _ (hs1 _)).1
              · intro k hk
                simp only [setW_wallets, setW_nextId, keysOf_updateA] at hk ⊢
                exact (gocw_WFw _ _ (hs1 _)).2 k hk
              · unfold conserved at hc ⊢
                simp only [setW_wallets, setW_txns]
                rw [wsum_updateA _ (gocw_WFw _ _ (hs1 _)).1 (gocw_lookup _ _ (hs1 _)),
                  gocw_wsum, gocw_txns]
                simp only [setW_wallets, setW_txns]
                rw [wsum_updateA _ hwf.1 hsw]
                simp only [sumBy_append, sumBy_cons, sumBy_nil, sumBy_singleton, wval]
                simp
                omega
            · split at h
              · cases h
              · rw [Except.ok.injEq] at h
                subst h
                rename_i hadm xd d hd hst xe escrow hesc xw sw hsw res0 hguard
                have hstage0 : WFw (setW s escrow.shipperWalletId
                    { sw with escrowBalance := sw.escrowBalance - escrow.amount }) :=
                  WFw_setW _ hwf
                have hlook0 : lookupA (setW s escrow.shipperWalletId
                      { sw with escrowBalance := sw.escrowBalance - escrow.amount }).wallets
                    escrow.shipperWalletId =
                    some { sw with escrowBalance := sw.escrowBalance - escrow.amount } := by
                  simp only [setW_wallets]
                  exact lookupA_updateA_self _ hsw
                have h1 := splitRefundStage_props did hr hstage0 hlook0
                have h2 := splitPayoutStage_props escrow.courierWalletId
                  (((lookupA s.trips d.tripId).map Trip.courierId).getD 0) did hp h1.1
                have h3 := splitTakeStage_props escrow.shipperWalletId did
                  (show (0:Int) ≤ escrow.amount - rr.getD 0 - pp.getD 0 by omega) h2.1
                refine ⟨?_, ?_⟩
                · exact ⟨h3.1.1, h3.1.2⟩
                · unfold conserved at hc ⊢
                  rw [h3.2.1, h3.2.2.1,
                    h3.2.2.2 TxnType.deposit (by decide),
                    h3.2.2.2 TxnType.withdrawal (by decide),
                    h2.2.1,
                    h2.2.2 TxnType.commission (by decide),
                    h2.2.2 TxnType.deposit (by decide),
                    h2.2.2 TxnType.withdrawal (by decide),
                    h1.2.1,
                    h1.2.2 TxnType.commission (by decide),
                    h1.2.2 TxnType.deposit (by decide),
                    h1.2.2 TxnType.withdrawal (by decide),
                    setW_wallets, setW_txns, wsum_updateA _ hwf.1 hsw]
                  simp only [wval]
                  simp
                  omega
      · cases h
  · cases h

theorem applyEOp_preserves (o : EOp) {s : St} (hv : ValidEOp o)
    (hwf : WFw s) (hc : conserved s) :
    WFw (applyEOp o s) ∧ conserved (applyEOp o s) := by
  cases o with
  | create rate tid =>
      cases hr : createEscrowHold rate tid s with
      | ok s1 => simpa [applyEOp, hr] using create_preserves hwf hc hr
      | error e => simpa [applyEOp, hr] using And.intro hwf hc
  | release rate u eid =>
      cases hr : releaseEscrow rate u eid s with
      | ok s1 => simpa [applyEOp, hr] using release_preserves hwf hc hr
      | error e => simpa [applyEOp, hr] using And.intro hwf hc
  | refund u eid =>
      cases hr : refundEscrow u eid s with
      | ok s1 => simpa [applyEOp, hr] using refund_preserves hwf hc hr
      | error e => simpa [applyEOp, hr] using And.intro hwf hc
  | resolve rate u did res rr pp =>
      cases hr : resolveDispute rate u did res rr pp s with
      | ok s1 => simpa [applyEOp, hr] using resolve_preserves hv.1 hv.2 hwf hc hr
      | error e => simpa [applyEOp, hr] using And.intro hwf hc

theorem applyEOps_preserves (l : List EOp) {s : St} (hv : ∀ o ∈ l, ValidEOp o)
    (hwf : WFw s) (hc : conserved s) :
    WFw (applyEOps l s) ∧ conserved (applyEOps l s) := by
  induction l generalizing s with
  | nil => exact ⟨hwf, hc⟩
  | cons o t ih =>
      have h1 := applyEOp_preserves o (hv o (List.mem_cons_self o t)) hwf hc
      exact ih (fun o' ho' => hv o' (List.mem_cons_of_mem o ho')) h1.1 h1.2

/-- **C1** — Conservation of money: for every sequence of
hold-creations, releases, refunds, and dispute(-split) resolutions over
a fixed set of wallets (a state whose wallet table is well-keyed), the
sum of all wallets' available + escrow balances, plus the cumulative
platform commission recorded in the ledger, equals the sum of all
completed deposits minus all completed withdrawals, provided the state
satisfied that equation before the sequence.  `ops` ranges over every
sequence, hence the equation holds after every prefix, i.e. after every
operation in the sequence.  `ValidEOp` records the request schema's
`ge=0` validation of split amounts. -/
theorem c1_conservation_of_money (ops : List EOp) (s : St)
    (hv : ∀ o ∈ ops, ValidEOp o) (hwf : WFw s) (hc : conserved s) :
    conserved (applyEOps ops s) :=
  (applyEOps_preserves ops hv hwf hc).2

/-- Closed instantiation of `c1_conservation_of_money`: the hypotheses
hold for `c1s0` / `c1ops` and the equation holds after running the
sequence, which does take effect (the hold created for trip 10 ends
refunded). -/
theorem c1_conservation_of_money_witness :
    (∀ o ∈ c1ops, ValidEOp o) ∧ WFw c1s0 ∧ conserved c1s0 ∧
      conserved (applyEOps c1ops c1s0) ∧
      (lookupA (applyEOps c1ops c1s0).holds 30).map Hold.status =
        some EscrowStatus.refunded :=
  ⟨by decide, by decide, by decide,
   c1_conservation_of_money c1ops c1s0 (by decide) (by decide) (by decide),
   by decide⟩

/-- `roundRat` computes the mathematical round-half-up of `n / d`. -/
theorem roundRat_eq_round (n : Int) (d : ℕ) (hd : 0 < d) :
    roundRat n d = round ((n : ℚ) / (d : ℚ)) := by
  have hdq : ((d : ℚ)) ≠ 0 := by positivity
  rw [round_eq]
  have h2 : (n : ℚ) / (d : ℚ) + 1 / 2 = ((2 * n + (d : ℤ) : ℤ) : ℚ) / ((2 * d : ℕ) : ℚ) := by
    push_cast
    field_simp
    ring
  rw [h2, Rat.floor_intCast_div_natCast]
  unfold roundRat
  push_cast
  rfl

/-- `round` is monotone on the rationals. -/
theorem round_mono_q {x y : ℚ} (h : x ≤ y) : round x ≤ round y := by
  rw [round_eq, round_eq]
  exact Int.floor_le_floor (by linarith)

/-- Rounding commutes with the integer-bounded clamp of the withdrawal
fee: `feeCents` computes `round(max(0.50, min(amount * 0.01, 10.00)), 2)`
in minor units. -/
theorem feeCents_eq_formula (amount : Int) :
    feeCents amount = round (max (50 : ℚ) (min ((amount : ℚ) / 100) 1000)) := by
  have hr : roundRat amount 100 = round ((amount : ℚ) / 100) :=
    roundRat_eq_round amount 100 (by norm_num)
  unfold feeCents
  rw [hr]
  rcases le_total ((amount : ℚ) / 100) 50 with h1 | h1
  · have hle : ((amount : ℚ) / 100) ≤ 1000 := le_trans h1 (by norm_num)
    have hR : round ((amount : ℚ) / 100) ≤ 50 := by
      have := round_mono_q h1
      simpa [round_ofNat] using this
    rw [min_eq_left hle, max_eq_left h1, round_ofNat,
      min_eq_left (le_trans hR (by norm_num)), max_eq_left hR]
    norm_num
  · rcases le_total ((amount : ℚ) / 100) 1000 with h2 | h2
    · have ha : (50 : Int) ≤ round ((amount : ℚ) / 100) := by
        have := round_mono_q h1
        simpa [round_ofNat] using this
      have hb : round ((amount : ℚ) / 100) ≤ 1000 := by
        have := round_mono_q h2
        simpa [round_ofNat] using this
      rw [min_eq_left h2, max_eq_right h1, min_eq_left hb, max_eq_right ha]
    · have hb : (1000 : Int) ≤ round ((amount : ℚ) / 100) := by
        have := round_mono_q h2
        simpa [round_ofNat] using this
      rw [min_eq_right h2, max_eq_right (by norm_num : (50 : ℚ) ≤ 1000), round_ofNat,
        min_eq_right hb, max_eq_right (by norm_num : (50 : Int) ≤ 1000)]
      norm_num

theorem getOrCreateWallet_found {s : St} {uid wid : Nat} {w : Wallet}
    (hfind : findWalletByUser s uid = some (wid, w)) :
    getOrCreateWallet uid s = (wid, w, s) := by
  unfold getOrCreateWallet
  rw [hfind]

/-- Effect of a funded withdrawal on an active wallet: the exact state
produced by `withdraw_momo`. -/
theorem withdrawMomo_ok {s : St} {uid : Nat} {amount : Int} {wid : Nat} {w : Wallet}
    (hfind : findWalletByUser s uid = some (wid, w))
    (hact : w.status = WalletStatus.active)
    (hbal : amount + feeCents amount ≤ w.balance) :
    withdrawMomo uid amount s = .ok
      { s with
        wallets := updateA s.wallets wid
          { w with balance := w.balance - (amount + feeCents amount),
                   totalWithdrawn := w.totalWithdrawn + amount },
        txns := s.txns ++
          [{ walletId := wid, ttype := .withdrawal, amount := amount,
             fee := feeCents amount, netAmount := amount,
             balanceAfter := w.balance - (amount + feeCents amount),
             status := .processing, refType := "momo_payment", refId := s.nextId }],
        momos := s.momos ++
          [(s.nextId, { walletId := wid, txnIdx := s.txns.length,
                        direction := .disbursement, amount := amount,
                        fee := feeCents amount, status := .pending })],
        nextId := s.nextId + 1 } := by
  unfold withdrawMomo
  rw [getOrCreateWallet_found hfind]
  simp only [if_pos hact, if_neg (not_lt.mpr hbal)]
  rfl

/-- **C8** — Withdrawal fee and optimistic debit: on an active wallet,
the fee is 1 % of the amount clamped to the interval
[GHS 0.50, GHS 10.00] (rounded to the minor unit), and when the
available balance covers amount + fee the withdrawal immediately debits
exactly amount + fee, adds the amount to `total_withdrawn`, writes a
`processing` withdrawal ledger entry carrying the fee, and records a
pending disbursement; in particular a withdrawal of GHS 500.00 debits
GHS 505.00. -/
theorem c8_withdraw_fee_and_debit (s : St) (uid : Nat) (amount : Int)
    (wid : Nat) (w : Wallet)
    (hfind : findWalletByUser s uid = some (wid, w))
    (hact : w.status = WalletStatus.active)
    (hbal : amount + feeCents amount ≤ w.balance) :
    feeCents amount = round (min (max ((amount : ℚ) / 100) 50) 1000) ∧
    withdrawMomo uid amount s = .ok
      { s with
        wallets := updateA s.wallets wid
          { w with balance := w.balance - (amount + feeCents amount),
                   totalWithdrawn := w.totalWithdrawn + amount },
        txns := s.txns ++
          [{ walletId := wid, ttype := .withdrawal, amount := amount,
             fee := feeCents amount, netAmount := amount,
             balanceAfter := w.balance - (amount + feeCents amount),
             status := .processing, refType := "momo_payment", refId := s.nextId }],
        momos := s.momos ++
          [(s.nextId, { walletId := wid, txnIdx := s.txns.length,
                        direction := .disbursement, amount := amount,
                        fee := feeCents amount, status := .pending })],
        nextId := s.nextId + 1 } ∧
    feeCents 50000 = 500 ∧ (50000 : Int) + feeCents 50000 = 50500 := by
  refine ⟨?_, withdrawMomo_ok hfind hact hbal, by decide, by decide⟩
  rw [feeCents_eq_formula, max_min_distrib_left, max_comm (50 : ℚ),
    max_eq_right (by norm_num : (50 : ℚ) ≤ 1000)]

/-- Closed instantiation of `c8_withdraw_fee_and_debit`: the hypotheses
hold for a GHS 500.00 withdrawal from `c8s0`, the fee is GHS 5.00 and
the immediate debit GHS 505.00. -/
theorem c8_withdraw_fee_and_debit_witness :
    findWalletByUser c8s0 1 = some (0, c8w) ∧
    c8w.status = WalletStatus.active ∧
    (50000 : Int) + feeCents 50000 ≤ c8w.balance ∧
    feeCents 50000 = 500 ∧ (50000 : Int) + feeCents 50000 = 50500 :=
  ⟨by decide, by decide, by decide,
   (c8_withdraw_fee_and_debit c8s0 1 50000 0 c8w (by decide) (by decide)
     (by decide)).2.2.1,
   (c8_withdraw_fee_and_debit c8s0 1 50000 0 c8w (by decide) (by decide)
     (by decide)).2.2.2⟩

theorem set_append_length {α : Type} (l : List α) (a b : α) :
    (l ++ [a]).set l.length b = l ++ [b] := by
  induction l with
  | nil => rfl
  | cons hd t ih => simpa [List.set] using ih

theorem updTxnAt_append_length (l : List Txn) (t : Txn) (f : Txn → Txn) :
    updTxnAt (l ++ [t]) l.length f = l ++ [f t] := by
  unfold updTxnAt
  rw [List.get?_concat_length]
  exact set_append_length l t (f t)

/-- **C9** — Deposit initiation frame property: initiating a deposit on
an active wallet writes one `pending` deposit ledger entry and one
pending collection payment record but leaves the wallet table — hence
every balance field — unchanged; only the success callback for that
payment credits the wallet, by exactly the deposited amount with no fee
deducted, and completes the ledger entry. -/
theorem c9_deposit_initiation_frame (s : St) (uid : Nat) (amount : Int)
    (wid : Nat) (w : Wallet)
    (hfind : findWalletByUser s uid = some (wid, w))
    (hact : w.status = WalletStatus.active)
    (hnd : (keysOf s.wallets).Nodup)
    (hfresh : lookupA s.momos s.nextId = none) :
    depositMomo uid amount s = .ok
      { s with
        txns := s.txns ++
          [{ walletId := wid, ttype := .deposit, amount := amount, fee := 0,
             netAmount := amount, balanceAfter := w.balance, status := .pending,
             refType := "momo_payment", refId := s.nextId }],
        momos := s.momos ++
          [(s.nextId, { walletId := wid, txnIdx := s.txns.length,
                        direction := .collection, amount := amount, fee := 0,
                        status := .pending })],
        nextId := s.nextId + 1 } ∧
    momoCallback s.nextId "success"
      { s with
        txns := s.txns ++
          [{ walletId := wid, ttype := .deposit, amount := amount, fee := 0,
             netAmount := amount, balanceAfter := w.balance, status := .pending,
             refType := "momo_payment", refId := s.nextId }],
        momos := s.momos ++
          [(s.nextId, { walletId := wid, txnIdx := s.txns.length,
                        direction := .collection, amount := amount, fee := 0,
                        status := .pending })],
        nextId := s.nextId + 1 } = .ok
      ({ s with
         wallets := updateA s.wallets wid
           { w with balance := w.balance + amount,
                    totalDeposited := w.totalDeposited + amount },
         txns := s.txns ++
           [{ walletId := wid, ttype := .deposit, amount := amount, fee := 0,
              netAmount := amount, balanceAfter := w.balance + amount,
              status := .completed, refType := "momo_payment", refId := s.nextId }],
         momos := updateA
           (s.momos ++
             [(s.nextId, { walletId := wid, txnIdx := s.txns.length,
                           direction := .collection, amount := amount, fee := 0,
                           status := .pending })]) s.nextId
           { walletId := wid, txnIdx := s.txns.length, direction := .collection,
             amount := amount, fee := 0, status := .success },
         nextId := s.nextId + 1 }, "Callback processed: success") := by
  have hsw : lookupA s.wallets wid = some w :=
    lookupA_of_mem hnd (List.mem_of_find?_eq_some hfind)
  constructor
  · unfold depositMomo
    rw [getOrCreateWallet_found hfind]
    simp only [if_pos hact]
  · unfold momoCallback
    have hlm : lookupA (s.momos ++
        [(s.nextId, ({ walletId := wid, txnIdx := s.txns.length,
                       direction := .collection, amount := amount, fee := 0,
                       status := .pending } : MoMo))]) s.nextId =
        some { walletId := wid, txnIdx := s.txns.length, direction := .collection,
               amount := amount, fee := 0, status := .pending } := by
      rw [lookupA_append_none _ hfresh]
      simp [lookupA]
    rw [hlm]
    dsimp only
    rw [if_neg (by simp), if_pos (show pyLower "success" = "success" from rfl),
      if_pos (rfl : MoMoDirection.collection = MoMoDirection.collection), hsw]
    dsimp only
    simp only [setW_txns, setW_wallets]
    rw [updTxnAt_append_length]
    rfl

/-- Closed instantiation of `c9_deposit_initiation_frame`: its
hypotheses hold for a GHS 200.00 deposit on `c8s0` and the initiation
succeeds. -/
theorem c9_deposit_initiation_frame_witness :
    findWalletByUser c8s0 1 = some (0, c8w) ∧
    c8w.status = WalletStatus.active ∧
    (keysOf c8s0.wallets).Nodup ∧
    lookupA c8s0.momos c8s0.nextId = none ∧
    (depositMomo 1 20000 c8s0).isOk = true := by
  refine ⟨by decide, by decide, by decide, by decide, ?_⟩
  rw [(c9_deposit_initiation_frame c8s0 1 20000 0 c8w (by decide) (by decide)
    (by decide) (by decide)).1]
  rfl

/-- **C5** — Withdrawal reversal exactness: a withdrawal of `amount`
with its computed fee on an active wallet with sufficient balance,
followed by a `failed` / `timeout` / `cancelled` callback for the
disbursement, restores the available balance to exactly its
pre-withdrawal value and `total_withdrawn` to its pre-withdrawal value,
and marks the withdrawal's ledger entry `failed`. -/
theorem c5_withdrawal_reversal (s : St) (uid : Nat) (amount : Int)
    (wid : Nat) (w : Wallet) (failStr : String)
    (hfind : findWalletByUser s uid = some (wid, w))
    (hact : w.status = WalletStatus.active)
    (hbal : amount + feeCents amount ≤ w.balance)
    (hnd : (keysOf s.wallets).Nodup)
    (hfresh : lookupA s.momos s.nextId = none)
    (hfail : pyLower failStr = "failed" ∨ pyLower failStr = "timeout" ∨
      pyLower failStr = "cancelled") :
    withdrawMomo uid amount s = .ok
      { s with
        wallets := updateA s.wallets wid
          { w with balance := w.balance - (amount + feeCents amount),
                   totalWithdrawn := w.totalWithdrawn + amount },
        txns := s.txns ++
          [{ walletId := wid, ttype := .withdrawal, amount := amount,
             fee := feeCents amount, netAmount := amount,
             balanceAfter := w.balance - (amount + feeCents amount),
             status := .processing, refType := "momo_payment", refId := s.nextId }],
        momos := s.momos ++
          [(s.nextId, { walletId := wid, txnIdx := s.txns.length,
                        direction := .disbursement, amount := amount,
                        fee := feeCents amount, status := .pending })],
        nextId := s.nextId + 1 } ∧
    ∃ s2, momoCallback s.nextId failStr
        { s with
          wallets := updateA s.wallets wid
            { w with balance := w.balance - (amount + feeCents amount),
                     totalWithdrawn := w.totalWithdrawn + amount },
          txns := s.txns ++
            [{ walletId := wid, ttype := .withdrawal, amount := amount,
               fee := feeCents amount, netAmount := amount,
               balanceAfter := w.balance - (amount + feeCents amount),
               status := .processing, refType := "momo_payment", refId := s.nextId }],
          momos := s.momos ++
            [(s.nextId, { walletId := wid, txnIdx := s.txns.length,
                          direction := .disbursement, amount := amount,
                          fee := feeCents amount, status := .pending })],
          nextId := s.nextId + 1 } = .ok (s2, "Callback processed: " ++ failStr) ∧
      (lookupA s2.wallets wid).map Wallet.balance = some w.balance ∧
      (lookupA s2.wallets wid).map Wallet.totalWithdrawn = some w.totalWithdrawn ∧
      s2.txns = s.txns ++
        [{ walletId := wid, ttype := .withdrawal, amount := amount,
           fee := feeCents amount, netAmount := amount,
           balanceAfter := w.balance - (amount + feeCents amount),
           status := .failed, refType := "momo_payment", refId := s.nextId }] := by
  have hsw : lookupA s.wallets wid = some w :=
    lookupA_of_mem hnd (List.mem_of_find?_eq_some hfind)
  refine ⟨withdrawMomo_ok hfind hact hbal, ?_⟩
  have hns : ¬ pyLower failStr = "success" := by
    rcases hfail with h | h | h <;> rw [h] <;> decide
  unfold momoCallback
  have hlm : lookupA (s.momos ++
      [(s.nextId, ({ walletId := wid, txnIdx := s.txns.length,
                     direction := .disbursement, amount := amount,
                     fee := feeCents amount, status := .pending } : MoMo))]) s.nextId =
      some { walletId := wid, txnIdx := s.txns.length, direction := .disbursement,
             amount := amount, fee := feeCents amount, status := .pending } := by
    rw [lookupA_append_none _ hfresh]
    simp [lookupA]
  rw [hlm]
  dsimp only
  rw [if_neg (by simp), if_neg hns, if_pos hfail,
    if_pos (rfl : MoMoDirection.disbursement = MoMoDirection.disbursement),
    lookupA_updateA_self _ hsw]
  dsimp only
  simp only [setW_wallets, setW_txns]
  rw [updTxnAt_append_length]
  refine ⟨_, rfl, ?_, ?_, rfl⟩
  · rw [lookupA_updateA_self _ (lookupA_updateA_self _ hsw)]
    show some _ = some _
    congr 1
    dsimp only
    omega
  · rw [lookupA_updateA_self _ (lookupA_updateA_self _ hsw)]
    show some _ = some _
    congr 1
    dsimp only
    omega

/-- Closed instantiation of `c5_withdrawal_reversal`: its hypotheses
hold for a GHS 500.00 withdrawal from `c8s0` answered by a `FAILED`
callback, and the withdrawal succeeds. -/
theorem c5_withdrawal_reversal_witness :
    findWalletByUser c8s0 1 = some (0, c8w) ∧
    c8w.status = WalletStatus.active ∧
    (50000 : Int) + feeCents 50000 ≤ c8w.balance ∧
    (keysOf c8s0.wallets).Nodup ∧
    lookupA c8s0.momos c8s0.nextId = none ∧
    (pyLower "FAILED" = "failed" ∨ pyLower "FAILED" = "timeout" ∨
      pyLower "FAILED" = "cancelled") ∧
    (withdrawMomo 1 50000 c8s0).isOk = true := by
  refine ⟨by decide, by decide, by decide, by decide, by decide, by decide, ?_⟩
  rw [(c5_withdrawal_reversal c8s0 1 50000 0 c8w "FAILED" (by decide) (by decide)
    (by decide) (by decide) (by decide) (by decide)).1]
  rfl

/-- A payment record already in a terminal (`success` / `failed`)
status is acknowledged without re-applying any effect. -/
theorem momoCallback_noop {s : St} {key : Nat} {m : MoMo}
    (hm : lookupA s.momos key = some m)
    (hterm : m.status = MoMoStatus.success ∨ m.status = MoMoStatus.failed)
    (stStr : String) :
    momoCallback key stStr s = .ok (s, "Payment already processed") := by
  unfold momoCallback
  rw [hm]
  dsimp only
  rw [if_pos hterm]

/-- **C4** — Idempotent payment callback: a callback for a record
already in a terminal status is a no-op returning success (clause 1),
and replaying any callback after it has been processed once leaves the
state of the first processing unchanged (clause 2) — so the same
callback delivered twice never credits a deposit twice and never
reverses a withdrawal debit twice. -/
theorem c4_callback_idempotent (s : St) (key : Nat) (stStr : String) :
    (∀ m, lookupA s.momos key = some m →
      (m.status = MoMoStatus.success ∨ m.status = MoMoStatus.failed) →
      momoCallback key stStr s = .ok (s, "Payment already processed")) ∧
    (∀ s1 msg, momoCallback key stStr s = .ok (s1, msg) →
      ∃ msg2, momoCallback key stStr s1 = .ok (s1, msg2)) := by
  constructor
  · intro m hm hterm
    exact momoCallback_noop hm hterm stStr
  · intro s1 msg h
    unfold momoCallback at h
    cases hm : lookupA s.momos key with
    | none => rw [hm] at h; cases h
    | some m =>
      rw [hm] at h
      dsimp only at h
      by_cases hterm : m.status = MoMoStatus.success ∨ m.status = MoMoStatus.failed
      · rw [if_pos hterm] at h
        rw [Except.ok.injEq, Prod.mk.injEq] at h
        obtain ⟨rfl, -⟩ := h
        exact ⟨_, momoCallback_noop hm hterm stStr⟩
      · rw [if_neg hterm] at h
        by_cases hsucc : pyLower stStr = "success"
        · rw [if_pos hsucc] at h
          by_cases hdir : m.direction = MoMoDirection.collection
          · rw [if_pos hdir] at h
            cases hw : lookupA ({ s with
                momos := updateA s.momos key { m with status := .success } } : St).wallets
                m.walletId with
            | none => rw [hw] at h; cases h
            | some w =>
              rw [hw] at h
              dsimp only at h
              rw [Except.ok.injEq, Prod.mk.injEq] at h
              obtain ⟨rfl, -⟩ := h
              exact ⟨_, momoCallback_noop (lookupA_updateA_self _ hm) (Or.inl rfl) stStr⟩
          · rw [if_neg hdir] at h
            rw [Except.ok.injEq, Prod.mk.injEq] at h
            obtain ⟨rfl, -⟩ := h
            exact ⟨_, momoCallback_noop (lookupA_updateA_self _ hm) (Or.inl rfl) stStr⟩
        · rw [if_neg hsucc] at h
          by_cases hfail : pyLower stStr = "failed" ∨ pyLower stStr = "timeout" ∨
              pyLower stStr = "cancelled"
          · rw [if_pos hfail] at h
            by_cases hdir : m.direction = MoMoDirection.disbursement
            · rw [if_pos hdir] at h
              cases hw : lookupA ({ s with
                  momos := updateA s.momos key { m with status := .failed } } : St).wallets
                  m.walletId with
              | none => rw [hw] at h; cases h
              | some w =>
                rw [hw] at h
                dsimp only at h
                rw [Except.ok.injEq, Prod.mk.injEq] at h
                obtain ⟨rfl, -⟩ := h
                exact ⟨_, momoCallback_noop (lookupA_updateA_self _ hm) (Or.inr rfl) stStr⟩
            · rw [if_neg hdir] at h
              rw [Except.ok.injEq, Prod.mk.injEq] at h
              obtain ⟨rfl, -⟩ := h
              exact ⟨_, momoCallback_noop (lookupA_updateA_self _ hm) (Or.inr rfl) stStr⟩
          · rw [if_neg hfail] at h
            rw [Except.ok.injEq, Prod.mk.injEq] at h
            obtain ⟨rfl, -⟩ := h
            refine ⟨"Callback processed: " ++ stStr, ?_⟩
            unfold momoCallback
            rw [hm]
            dsimp only
            rw [if_neg hterm, if_neg hsucc, if_neg hfail]

/-- Closed instantiation of `c4_callback_idempotent`: replaying the
callback for the already-successful record `c4m` acknowledges success
and changes nothing, twice over. -/
theorem c4_callback_idempotent_witness :
    lookupA c4s0.momos 3 = some c4m ∧
    (c4m.status = MoMoStatus.success ∨ c4m.status = MoMoStatus.failed) ∧
    momoCallback 3 "success" c4s0 = .ok (c4s0, "Payment already processed") ∧
    (∃ msg2, momoCallback 3 "success" c4s0 = .ok (c4s0, msg2)) := by
  have h := c4_callback_idempotent c4s0 3 "success"
  have h1 := h.1 c4m (by decide) (by decide)
  exact ⟨by decide, by decide, h1, h.2 c4s0 "Payment already processed" h1⟩

/-- **C10** — Unrecognized callback status falls through silently: for
a callback whose status string lower-cases to none of `success`,
`failed`, `timeout`, `cancelled`, the handler changes nothing — the
payment record keeps its prior status, no wallet balance moves and no
ledger entry is updated — yet it still acknowledges with a success
response (either the already-processed or the generic processed
message). -/
theorem c10_unrecognized_status_noop (s : St) (key : Nat) (stStr : String) (m : MoMo)
    (hm : lookupA s.momos key = some m)
    (hun : pyLower stStr ∉ (["success", "failed", "timeout", "cancelled"] : List String)) :
    momoCallback key stStr s = .ok (s,
      if m.status = MoMoStatus.success ∨ m.status = MoMoStatus.failed
      then "Payment already processed" else "Callback processed: " ++ stStr) := by
  simp only [List.mem_cons, List.not_mem_nil, or_false, not_or] at hun
  obtain ⟨h1, h2, h3, h4⟩ := hun
  unfold momoCallback
  rw [hm]
  dsimp only
  by_cases hterm : m.status = MoMoStatus.success ∨ m.status = MoMoStatus.failed
  · rw [if_pos hterm, if_pos hterm]
  · rw [if_neg hterm, if_neg hterm, if_neg h1,
      if_neg (show ¬ (pyLower stStr = "failed" ∨ pyLower stStr = "timeout" ∨
        pyLower stStr = "cancelled") by tauto)]

/-- Closed instantiation of `c10_unrecognized_status_noop`: a callback
with status `IN_PROGRESS` for the pending record `c10m` changes
nothing and still acknowledges success. -/
theorem c10_unrecognized_status_noop_witness :
    lookupA c10s0.momos 3 = some c10m ∧
    pyLower "IN_PROGRESS" ∉ (["success", "failed", "timeout", "cancelled"] : List String) ∧
    momoCallback 3 "IN_PROGRESS" c10s0 = .ok (c10s0,
      if c10m.status = MoMoStatus.success ∨ c10m.status = MoMoStatus.failed
      then "Payment already processed" else "Callback processed: " ++ "IN_PROGRESS") :=
  ⟨by decide, by decide,
   c10_unrecognized_status_noop c10s0 3 "IN_PROGRESS" c10m (by decide) (by decide)⟩

/-- Field-level characterization of the shipper-refund split stage. -/
theorem splitRefundStage_out {s : St} {wid : Nat} {sw1 : Wallet} (r : Int) (did : Nat)
    (hsw : lookupA s.wallets wid = some sw1) :
    (splitRefundStage wid sw1 r did s).wallets =
      (if 0 < r then updateA s.wallets wid { sw1 with balance := sw1.balance + r }
       else s.wallets) ∧
    (splitRefundStage wid sw1 r did s).txns = s.txns ++
      (if 0 < r then
        [{ walletId := wid, ttype := .escrowRefund, amount := r, fee := 0,
           netAmount := r, balanceAfter := sw1.balance + r, status := .completed,
           refType := "dispute", refId := did }]
       else []) ∧
    (splitRefundStage wid sw1 r did s).holds = s.holds ∧
    (splitRefundStage wid sw1 r did s).disputes = s.disputes ∧
    (splitRefundStage wid sw1 r did s).nextId = s.nextId := by
  unfold splitRefundStage
  by_cases h0 : r > 0
  · rw [if_pos h0, if_pos h0, if_pos h0]
    have hba : balOf (setW s wid { sw1 with balance := sw1.balance + r }) wid
        = sw1.balance + r := by
      unfold balOf
      rw [setW_wallets, lookupA_updateA_self _ hsw]
      rfl
    refine ⟨rfl, ?_, rfl, rfl, rfl⟩
    dsimp only
    rw [setW_txns, hba]
  · rw [if_neg h0, if_neg h0, if_neg h0]
    exact ⟨rfl, by simp, rfl, rfl, rfl⟩

/-- Field-level characterization of the courier-payout split stage when
the hold references an existing courier wallet row. -/
theorem splitPayoutStage_out {s : St} {cid : Nat} {cw : Wallet} (fu : Nat) (p : Int)
    (did : Nat) (hcl : lookupA s.wallets cid = some cw) :
    (splitPayoutStage (some cid) fu p did s).wallets =
      (if 0 < p then updateA s.wallets cid
        { cw with balance := cw.balance + p, totalEarned := cw.totalEarned + p }
       else s.wallets) ∧
    (splitPayoutStage (some cid) fu p did s).txns = s.txns ++
      (if 0 < p then
        [{ walletId := cid, ttype := .escrowRelease, amount := p, fee := 0,
           netAmount := p, balanceAfter := cw.balance + p, status := .completed,
           refType := "dispute", refId := did }]
       else []) ∧
    (splitPayoutStage (some cid) fu p did s).holds = s.holds ∧
    (splitPayoutStage (some cid) fu p did s).disputes = s.disputes ∧
    (splitPayoutStage (some cid) fu p did s).nextId = s.nextId := by
  unfold splitPayoutStage getOrCreateCourierWallet
  by_cases h0 : p > 0
  · rw [if_pos h0, if_pos h0, if_pos h0]
    have hsc : ((some cid).bind fun c => Option.map (fun w => (c, w)) (lookupA s.wallets c))
        = some (cid, cw) := by
      simp [hcl]
    rw [hsc]
    dsimp only
    have hba : balOf (setW s cid
        { cw with balance := cw.balance + p, totalEarned := cw.totalEarned + p }) cid
        = cw.balance + p := by
      unfold balOf
      rw [setW_wallets, lookupA_updateA_self _ hcl]
      rfl
    refine ⟨rfl, ?_, rfl, rfl, rfl⟩
    dsimp only
    rw [setW_txns, hba]
  · rw [if_neg h0, if_neg h0, if_neg h0]
    exact ⟨rfl, by simp, rfl, rfl, rfl⟩

/-- Field-level characterization of the platform-take split stage. -/
theorem splitTakeStage_out (s : St) (wid : Nat) (take : Int) (did : Nat) :
    (splitTakeStage wid take did s).wallets = s.wallets ∧
    (splitTakeStage wid take did s).txns = s.txns ++
      (if 0 < take then
        [{ walletId := wid, ttype := .commission, amount := take, fee := 0,
           netAmount := take, balanceAfter := balOf s wid, status := .completed,
           refType := "dispute", refId := did }]
       else []) ∧
    (splitTakeStage wid take did s).holds = s.holds ∧
    (splitTakeStage wid take did s).disputes = s.disputes ∧
    (splitTakeStage wid take did s).nextId = s.nextId := by
  unfold splitTakeStage
  by_cases h0 : take > 0
  · rw [if_pos h0, if_pos h0]
    exact ⟨rfl, rfl, rfl, rfl, rfl⟩
  · rw [if_neg h0, if_neg h0]
    exact ⟨rfl, by simp, rfl, rfl, rfl⟩

/-- **C6** — Dispute split invariant: a split resolution is rejected,
with no state change, whenever shipper refund + courier payout exceeds
the hold amount; when it succeeds the shipper is credited exactly the
refund, the courier exactly the payout, the hold records a platform
take of `amount − refund − payout` and ends `partially_released`, the
dispute is stamped with the exact amounts, and each non-zero component
writes its own ledger entry while a zero component writes none. -/
theorem c6_dispute_split_invariant
    (s : St) (rate : Int) (u : Caller) (did : Nat) (rr pp : Option Int)
    (d : DisputeR) (escrow : Hold) (sw : Wallet) (cid : Nat) (cw : Wallet)
    (hadm : u.admin = true)
    (hd : lookupA s.disputes did = some d)
    (hds : d.status = DisputeStatus.opened ∨ d.status = DisputeStatus.underReview ∨
      d.status = DisputeStatus.escalated)
    (he : lookupA s.holds d.escrowId = some escrow)
    (hsw : lookupA s.wallets escrow.shipperWalletId = some sw)
    (hcw : escrow.courierWalletId = some cid)
    (hcl : lookupA s.wallets cid = some cw)
    (hne : cid ≠ escrow.shipperWalletId)
    (hr : 0 ≤ rr.getD 0) (hp : 0 ≤ pp.getD 0) :
    (escrow.amount < rr.getD 0 + pp.getD 0 →
      resolveDispute rate u did .split rr pp s =
        .error (.badRequest "Split amounts exceed escrow amount")) ∧
    (rr.getD 0 + pp.getD 0 ≤ escrow.amount →
      ∃ s', resolveDispute rate u did .split rr pp s = .ok s' ∧
        (lookupA s'.wallets escrow.shipperWalletId).map Wallet.balance =
          some (sw.balance + rr.getD 0) ∧
        (lookupA s'.wallets escrow.shipperWalletId).map Wallet.escrowBalance =
          some (sw.escrowBalance - escrow.amount) ∧
        (lookupA s'.wallets cid).map Wallet.balance = some (cw.balance + pp.getD 0) ∧
        lookupA s'.holds d.escrowId = some ({ escrow with
          status := .partlyReleased,
          payoutAmount := some (pp.getD 0),
          commissionAmount := some (escrow.amount - rr.getD 0 - pp.getD 0) }) ∧
        lookupA s'.disputes did = some ({ d with
          shipperRefundAmount := some (rr.getD 0),
          courierPayoutAmount := some (pp.getD 0),
          status := .resolvedSplit }) ∧
        s'.txns = s.txns ++
          (if 0 < rr.getD 0 then
            [{ walletId := escrow.shipperWalletId, ttype := .escrowRefund,
               amount := rr.getD 0, fee := 0, netAmount := rr.getD 0,
               balanceAfter := sw.balance + rr.getD 0, status := .completed,
               refType := "dispute", refId := did }] else []) ++
          (if 0 < pp.getD 0 then
            [{ walletId := cid, ttype := .escrowRelease, amount := pp.getD 0,
               fee := 0, netAmount := pp.getD 0,
               balanceAfter := cw.balance + pp.getD 0, status := .completed,
               refType := "dispute", refId := did }] else []) ++
          (if 0 < escrow.amount - rr.getD 0 - pp.getD 0 then
            [{ walletId := escrow.shipperWalletId, ttype := .commission,
               amount := escrow.amount - rr.getD 0 - pp.getD 0, fee := 0,
               netAmount := escrow.amount - rr.getD 0 - pp.getD 0,
               balanceAfter := sw.balance + rr.getD 0, status := .completed,
               refType := "dispute", refId := did }] else [])) := by
  unfold resolveDispute
  rw [if_pos hadm, hd]
  dsimp only
  rw [if_pos hds, he]
  dsimp only
  rw [hsw]
  dsimp only
  rw [hcw]
  constructor
  · intro hgt
    rw [if_pos hgt]
  · intro hle
    rw [if_neg (not_lt.mpr hle)]
    have hw1 : lookupA (setW s escrow.shipperWalletId
        { sw with escrowBalance := sw.escrowBalance - escrow.amount }).wallets
        escrow.shipperWalletId =
        some { sw with escrowBalance := sw.escrowBalance - escrow.amount } := by
      rw [setW_wallets]
      exact lookupA_updateA_self _ hsw
    have hc1 : lookupA (setW s escrow.shipperWalletId
        { sw with escrowBalance := sw.escrowBalance - escrow.amount }).wallets cid =
        some cw := by
      rw [setW_wallets, lookupA_updateA_of_ne _ _ hne]
      exact hcl
    have hR := splitRefundStage_out (rr.getD 0) did hw1
    have hc2 : lookupA (splitRefundStage escrow.shipperWalletId
        { sw with escrowBalance := sw.escrowBalance - escrow.amount } (rr.getD 0) did
        (setW s escrow.shipperWalletId
          { sw with escrowBalance := sw.escrowBalance - escrow.amount })).wallets cid =
        some cw := by
      rw [hR.1]
      split
      · rw [lookupA_updateA_of_ne _ _ hne]
        exact hc1
      · exact hc1
    have hP := splitPayoutStage_out
      (((lookupA s.trips d.tripId).map Trip.courierId).getD 0) (pp.getD 0) did hc2
    refine ⟨_, rfl, ?_, ?_, ?_, ?_, ?_, ?_⟩
    · dsimp only
      rw [(splitTakeStage_out _ _ _ _).1, hP.1]
      split
      · rw [lookupA_updateA_of_ne _ _ (Ne.symm hne), hR.1]
        split
        · rw [setW_wallets, lookupA_updateA_self _ (lookupA_updateA_self _ hsw)]
          show some _ = some _
          congr 1
        · rw [hw1]
          show some _ = some _
          congr 1
          dsimp only
          omega
      · rw [hR.1]
        split
        · rw [setW_wallets, lookupA_updateA_self _ (lookupA_updateA_self _ hsw)]
          show some _ = some _
          congr 1
        · rw [hw1]
          show some _ = some _
          congr 1
          dsimp only
          omega
    · dsimp only
      rw [(splitTakeStage_out _ _ _ _).1, hP.1]
      split
      · rw [lookupA_updateA_of_ne _ _ (Ne.symm hne), hR.1]
        split
        · rw [setW_wallets, lookupA_updateA_self _ (lookupA_updateA_self _ hsw)]
          rfl
        · rw [hw1]
          rfl
      · rw [hR.1]
        split
        · rw [setW_wallets, lookupA_updateA_self _ (lookupA_updateA_self _ hsw)]
          rfl
        · rw [hw1]
          rfl
    · dsimp only
      rw [(splitTakeStage_out _ _ _ _).1, hP.1]
      split
      · rw [lookupA_updateA_self _ hc2]
        rfl
      · rw [hc2]
        show some _ = some _
        congr 1
        omega
    · dsimp only
      rw [(splitTakeStage_out _ _ _ _).2.2.1, hP.2.2.1, hR.2.2.1, setW_holds]
      exact lookupA_updateA_self _ he
    · dsimp only
      rw [(splitTakeStage_out _ _ _ _).2.2.2.1, hP.2.2.2.1, hR.2.2.2.1, setW_disputes]
      exact lookupA_updateA_self _ hd
    · dsimp only
      have hb3 : balOf (splitPayoutStage (some cid)
          (((lookupA s.trips d.tripId).map Trip.courierId).getD 0) (pp.getD 0) did
          (splitRefundStage escrow.shipperWalletId
            { sw with escrowBalance := sw.escrowBalance - escrow.amount } (rr.getD 0) did
            (setW s escrow.shipperWalletId
              { sw with escrowBalance := sw.escrowBalance - escrow.amount })))
          escrow.shipperWalletId = sw.balance + rr.getD 0 := by
        unfold balOf
        rw [hP.1]
        split
        · rw [lookupA_updateA_of_ne _ _ (Ne.symm hne), hR.1]
          split
          · rw [setW_wallets, lookupA_updateA_self _ (lookupA_updateA_self _ hsw)]
            rfl
          · rw [hw1]
            show sw.balance = sw.balance + rr.getD 0
            omega
        · rw [hR.1]
          split
          · rw [setW_wallets, lookupA_updateA_self _ (lookupA_updateA_self _ hsw)]
            rfl
          · rw [hw1]
            show sw.balance = sw.balance + rr.getD 0
            omega
      rw [(splitTakeStage_out _ _ _ _).2.1, hb3, hP.2.1, hR.2.1, setW_txns]

/-- Closed instantiation of `c6_dispute_split_invariant`: on the
GHS 800.00 dispute, an over-sized split (700 + 400) is rejected, and
the spec's 300/400 split succeeds. -/
theorem c6_dispute_split_invariant_witness :
    lookupA c6s0.disputes 21 = some c6d ∧
    (c6d.status = DisputeStatus.opened ∨ c6d.status = DisputeStatus.underReview ∨
      c6d.status = DisputeStatus.escalated) ∧
    lookupA c6s0.holds c6d.escrowId = some c6escrow ∧
    lookupA c6s0.wallets c6escrow.shipperWalletId = some c6sw ∧
    c6escrow.courierWalletId = some 1 ∧
    lookupA c6s0.wallets 1 = some c6cw ∧
    (1 : Nat) ≠ c6escrow.shipperWalletId ∧
    resolveDispute 500 ⟨9, true⟩ 21 .split (some 70000) (some 40000) c6s0 =
      .error (.badRequest "Split amounts exceed escrow amount") ∧
    (resolveDispute 500 ⟨9, true⟩ 21 .split (some 30000) (some 40000) c6s0).isOk = true := by
  refine ⟨by decide, by decide, by decide, by decide, by decide, by decide, by decide,
    ?_, ?_⟩
  · exact (c6_dispute_split_invariant c6s0 500 ⟨9, true⟩ 21 (some 70000) (some 40000)
      c6d c6escrow c6sw 1 c6cw rfl (by decide) (by decide) (by decide) (by decide)
      (by decide) (by decide) (by decide) (by decide) (by decide)).1 (by decide)
  · obtain ⟨s', hs', -⟩ := (c6_dispute_split_invariant c6s0 500 ⟨9, true⟩ 21
      (some 30000) (some 40000) c6d c6escrow c6sw 1 c6cw rfl (by decide) (by decide)
      (by decide) (by decide) (by decide) (by decide) (by decide) (by decide)
      (by decide)).2 (by decide)
    rw [hs']
    rfl

/-- **C7 counterexample** — the claim "creating a second hold for a
trip that already has a non-terminal hold always fails with the
duplicate-hold conflict error" is false: for trip 10 of `c7s0`, which
has a non-terminal (`held`) hold, `create_escrow_hold` fails with the
trip-status precondition error (checked first), not with the
duplicate-hold conflict. -/
theorem c7_counterexample :
    (lookupA c7s0.holds 20).map Hold.tripId = some 10 ∧
    (lookupA c7s0.holds 20).map Hold.status = some EscrowStatus.held ∧
    createEscrowHold 500 10 c7s0 =
      .error (.badRequest "Trip must be in pickup_pending status") ∧
    Err.badRequest "Trip must be in pickup_pending status" ≠
      Err.conflict "Escrow already exists for this trip" := by
  refine ⟨by decide, by decide, by decide, by decide⟩

/-- **C7 (amended)** — No double hold: for every trip that already has
an escrow hold (non-terminal or not — the duplicate check rejects
both), `create_escrow_hold` always fails, creating no hold, ledger
entry, or balance change; the error is the duplicate-hold conflict
exactly when the trip is still in `pickup_pending` status, while a trip
that has progressed is rejected first by the trip-status precondition
with a different error. -/
theorem c7_no_double_hold (s : St) (rate : Int) (tid : Nat)
    (hhold : s.holds.any (fun p => p.2.tripId == tid) = true) :
    (createEscrowHold rate tid s).isOk = false ∧
    (∀ trip, lookupA s.trips tid = some trip →
      trip.status = TripStatus.pickupPending →
      createEscrowHold rate tid s =
        .error (.conflict "Escrow already exists for this trip")) := by
  have hfind : ∃ pr, s.holds.find? (fun p => p.2.tripId == tid) = some pr := by
    rw [← Option.isSome_iff_exists, List.find?_isSome]
    simpa using List.any_eq_true.mp hhold
  obtain ⟨pr, hpr⟩ := hfind
  constructor
  · unfold createEscrowHold
    cases htrip : lookupA s.trips tid with
    | none => rfl
    | some trip =>
        dsimp only
        by_cases hst : trip.status = TripStatus.pickupPending
        · rw [if_pos hst, hpr]
          rfl
        · rw [if_neg hst]
          rfl
  · intro trip htrip hst
    unfold createEscrowHold
    rw [htrip]
    dsimp only
    rw [if_pos hst, hpr]

/-- Closed instantiation of `c7_no_double_hold`: on `c7s0` (trip moved
on) the call fails, and on `c7s1` (trip still `pickup_pending`) it
fails with the duplicate-hold conflict. -/
theorem c7_no_double_hold_witness :
    (c7s0.holds.any (fun p => p.2.tripId == 10)) = true ∧
    (createEscrowHold 500 10 c7s0).isOk = false ∧
    lookupA c7s1.trips 10 = some c7trip ∧
    createEscrowHold 500 10 c7s1 =
      .error (.conflict "Escrow already exists for this trip") :=
  ⟨by decide, (c7_no_double_hold c7s0 500 10 (by decide)).1, by decide,
   (c7_no_double_hold c7s1 500 10 (by decide)).2 c7trip (by decide) (by decide)⟩

/-- **C3 counterexample** — the claim "release computes commission from
the rate captured on the hold, so a later platform-rate change cannot
alter the commission" is false: hold 20 of `c3s1` captured rate 500 bp
(which would give commission 25.00 on 500.00), yet releasing it while
the platform rate is 1000 bp charges commission 50.00 and pays the
courier only 450.00 — `release_escrow` reads the module global
`PLATFORM_COMMISSION_RATE`, never `escrow.platform_commission_rate`. -/
theorem c3_counterexample :
    (lookupA c3s1.holds 20).map Hold.rate = some 500 ∧
    (releaseEscrow 1000 ⟨1, false⟩ 20 c3s1).isOk = true ∧
    (lookupA c3s2.holds 20).map Hold.commissionAmount = some (some 5000) ∧
    (lookupA c3s2.holds 20).map Hold.payoutAmount = some (some 45000) ∧
    (lookupA c3s2.wallets 1).map Wallet.balance = some 45000 ∧
    commissionCents 500 50000 = 2500 ∧ (5000 : Int) ≠ 2500 := by
  refine ⟨by decide, by decide, by decide, by decide, by decide, by decide, by decide⟩

/-- **C3 (amended)** — Commission rate at release: hold creation does
store the rate in effect at that instant on the hold, but releasing the
hold ignores the captured rate: the commission recorded on release
equals `round(amount x rate-in-effect-at-release)` and the payout
equals `amount` minus that commission, whatever rate the hold captured.
Hence a platform-rate change between creation and release does alter
the applied commission. -/
theorem c3_commission_rate_at_release (rateCreate rateRelease : Int) (u : Caller) :
    (∀ s tid s', lookupA s.holds s.nextId = none →
      createEscrowHold rateCreate tid s = .ok s' →
      (lookupA s'.holds s.nextId).map Hold.rate = some rateCreate) ∧
    (∀ s eid escrow s', lookupA s.holds eid = some escrow →
      releaseEscrow rateRelease u eid s = .ok s' →
      (lookupA s'.holds eid).map Hold.commissionAmount =
        some (some (commissionCents rateRelease escrow.amount)) ∧
      (lookupA s'.holds eid).map Hold.payoutAmount =
        some (some (escrow.amount - commissionCents rateRelease escrow.amount))) := by
  constructor
  · intro s tid s' hf hok
    unfold createEscrowHold at hok
    split at hok
    · cases hok
    · split at hok
      · split at hok
        · cases hok
        · split at hok
          · cases hok
          · split at hok
            · simp only [] at hok
              split at hok
              · cases hok
              · rw [Except.ok.injEq] at hok
                subst hok
                simp only [setW_holds, setW_nextId]
                rw [lookupA_append_none _ hf]
                simp [lookupA]
            · cases hok
      · cases hok
  · intro s eid escrow s' he hok
    unfold releaseEscrow at hok
    rw [he] at hok
    dsimp only at hok
    split at hok
    · split at hok
      · cases hok
      · split at hok
        · split at hok
          · split at hok
            · cases hok
            · rw [Except.ok.injEq] at hok
              subst hok
              simp only [setW_holds, gocw_holds]
              rw [lookupA_updateA_self _ he]
              exact ⟨rfl, rfl⟩
          · cases hok
        · cases hok
    · cases hok

/-- Closed instantiation of `c3_commission_rate_at_release`: creating a
hold on `c3s0` at rate 500 captures rate 500, and releasing hold 20 of
`c3s1` at rate 1000 records commission `commissionCents 1000 50000`. -/
theorem c3_commission_rate_at_release_witness :
    (lookupA (okD (createEscrowHold 500 10 c3s0) c3s0).holds c3s0.nextId).map Hold.rate =
      some 500 ∧
    (lookupA c3s2.holds 20).map Hold.commissionAmount =
      some (some (commissionCents 1000 c3hold.amount)) :=
  ⟨(c3_commission_rate_at_release 500 1000 ⟨1, false⟩).1 c3s0 10
      (okD (createEscrowHold 500 10 c3s0) c3s0) (by decide) (by decide),
   ((c3_commission_rate_at_release 500 1000 ⟨1, false⟩).2 c3s1 20 c3hold c3s2
      (by decide) (by decide)).1⟩

/-- Updating the row found by a `find?` scan cannot change the row seen
under key `eid` unless the written value is the old one: if the keys
are nodup, the found row is the `lookupA` row, so when the written
value coincides with it the table is left pointwise unchanged at
`eid`. -/
theorem lookupA_updateA_found {α : Type} {l : List (Nat × α)} {hid eid : Nat}
    {hold escrow v : α} (hnd : (keysOf l).Nodup) (hmem : (hid, hold) ∈ l)
    (he : lookupA l eid = some escrow) (hv : hold = escrow → v = escrow) :
    lookupA (updateA l hid v) eid = some escrow := by
  by_cases heq : eid = hid
  · subst heq
    have h2 : lookupA l eid = some hold := lookupA_of_mem hnd hmem
    have hEq : hold = escrow := by
      rw [he] at h2
      exact (Option.some.inj h2).symm
    rw [hv hEq]
    exact lookupA_updateA_self _ he
  · rw [lookupA_updateA_of_ne _ _ heq]
    exact he

/-- **C2 counterexample** — the claim "a terminal hold's status never
changes and its funds never move again" is false: in `c2s0` hold 20 is
released (terminal, courier paid, shipper balance 0.00); the shipper
then opens a dispute on the still-confirmed trip, and an admin resolves
it in the shipper's favour — `resolve_dispute` checks only the
dispute's status, never the hold's, so the `released` hold 20 flips to
`refunded` and the shipper is credited the full 500.00 a second
time. -/
theorem c2_counterexample :
    (releaseEscrow 500 ⟨1, false⟩ 20 c2s0).isOk = true ∧
    (lookupA c2s1.holds 20).map Hold.status = some EscrowStatus.released ∧
    (lookupA c2s1.wallets 0).map Wallet.balance = some 0 ∧
    (openDispute ⟨1, false⟩ 10 c2s1).isOk = true ∧
    (resolveDispute 500 ⟨9, true⟩ 30 .shipper none none c2s2).isOk = true ∧
    (lookupA c2s3.holds 20).map Hold.status = some EscrowStatus.refunded ∧
    (lookupA c2s3.wallets 0).map Wallet.balance = some 50000 := by
  refine ⟨by decide, by decide, by decide, by decide, by decide, by decide, by decide⟩

/-- **C2 (amended)** — State-machine guards as implemented: release
fails unless the hold is `held`; refund fails unless the hold is `held`
or `disputed`; opening a dispute leaves a non-`held` (in particular
terminal) hold's record unchanged even though it still creates the
dispute; but dispute resolution is guarded only by the *dispute's*
status — it fails when the dispute is not open / under-review /
escalated and never inspects the hold, which is why a terminal hold can
still transition through the dispute path. -/
theorem c2_terminal_hold_guards :
    (∀ s escrow rate u eid, lookupA s.holds eid = some escrow →
      escrow.status ≠ EscrowStatus.held →
      (releaseEscrow rate u eid s).isOk = false) ∧
    (∀ s escrow u eid, lookupA s.holds eid = some escrow →
      escrow.status ≠ EscrowStatus.held → escrow.status ≠ EscrowStatus.disputed →
      (refundEscrow u eid s).isOk = false) ∧
    (∀ s u tid s' eid escrow, (keysOf s.holds).Nodup →
      lookupA s.holds eid = some escrow → escrow.status ≠ EscrowStatus.held →
      openDispute u tid s = .ok s' →
      lookupA s'.holds eid = some escrow) ∧
    (∀ rate s u did res rr pp d, lookupA s.disputes did = some d →
      d.status ≠ DisputeStatus.opened → d.status ≠ DisputeStatus.underReview →
      d.status ≠ DisputeStatus.escalated →
      (resolveDispute rate u did res rr pp s).isOk = false) := by
  refine ⟨?_, ?_, ?_, ?_⟩
  · intro s escrow rate u eid he hne
    unfold releaseEscrow
    rw [he]
    dsimp only
    rw [if_neg hne]
    rfl
  · intro s escrow u eid he hne hnd
    unfold refundEscrow
    split
    · rw [he]
      dsimp only
      rw [if_neg (by rintro (h | h) <;> [exact hne h; exact hnd h])]
      rfl
    · rfl
  · intro s u tid s' eid escrow hnodup he hne hok
    unfold openDispute at hok
    split at hok
    · cases hok
    · split at hok
      · split at hok
        · split at hok
          · split at hok
            · cases hok
            · split at hok
              · cases hok
              · rename_i hid hold hfind hdup
                simp only [] at hok
                rw [Except.ok.injEq] at hok
                subst hok
                dsimp only
                refine lookupA_updateA_found hnodup
                  (List.mem_of_find?_eq_some hfind) he ?_
                intro hEq
                subst hEq
                rw [if_neg hne]
          · split at hok
            · cases hok
            · split at hok
              · cases hok
              · rename_i hid hold hfind hdup
                simp only [] at hok
                rw [Except.ok.injEq] at hok
                subst hok
                dsimp only
                refine lookupA_updateA_found hnodup
                  (List.mem_of_find?_eq_some hfind) he ?_
                intro hEq
                subst hEq
                rw [if_neg hne]
        · cases hok
      · cases hok
  · intro rate s u did res rr pp d hd h1 h2 h3
    unfold resolveDispute
    split
    · rw [hd]
      dsimp only
      rw [if_neg (by rintro (h | h | h) <;> [exact h1 h; exact h2 h; exact h3 h])]
      rfl
    · rfl

/-- Closed instantiation of `c2_terminal_hold_guards` on the
counterexample states: release and refund are refused on the released
hold 20 of `c2s1`; opening the dispute leaves hold 20's record exactly
`c2holdR`; and resolving the already-resolved dispute 30 of `c2s3` is
refused. -/
theorem c2_terminal_hold_guards_witness :
    (releaseEscrow 500 ⟨9, true⟩ 20 c2s1).isOk = false ∧
    (refundEscrow ⟨9, true⟩ 20 c2s1).isOk = false ∧
    lookupA c2s2.holds 20 = some c2holdR ∧
    (resolveDispute 500 ⟨9, true⟩ 30 .shipper none none c2s3).isOk = false :=
  ⟨c2_terminal_hold_guards.1 c2s1 c2holdR 500 ⟨9, true⟩ 20 (by decide) (by decide),
   c2_terminal_hold_guards.2.1 c2s1 c2holdR ⟨9, true⟩ 20 (by decide) (by decide)
     (by decide),
   c2_terminal_hold_guards.2.2.1 c2s1 ⟨1, false⟩ 10 c2s2 20 c2holdR (by decide)
     (by decide) (by decide) (by decide),
   c2_terminal_hold_guards.2.2.2 500 c2s3 ⟨9, true⟩ 30 .shipper none none c2dR
     (by decide) (by decide) (by decide) (by decide)⟩

end LoadMove
